import Mathlib

/-!
Shallow embedding of the cloth-simulation core of `src/clothSim.cpp`
(tmryan/ClothSim).  GLfloat arithmetic is modelled exactly over `ℝ`
(decimal literals are exact rationals), `long` is modelled as `ℤ`, and
pointers into the particle grid are modelled as (row, column) indices
into a particle map.  Rendering, OpenGL state and the event loop are out
of scope (see spec §1); display colors are omitted because the physics
never reads them.
-/

namespace ClothSim

/-- Struct vec3 (clothSim.cpp:56-60). -/
structure vec3 where
  x : ℝ
  y : ℝ
  z : ℝ

instance : Zero vec3 := ⟨⟨0, 0, 0⟩⟩

/-- Componentwise operator+ (clothSim.cpp:1182-1184). -/
instance : Add vec3 := ⟨fun u v => ⟨u.x + v.x, u.y + v.y, u.z + v.z⟩⟩

/-- Componentwise operator- (clothSim.cpp:1186-1188). -/
instance : Sub vec3 := ⟨fun u v => ⟨u.x - v.x, u.y - v.y, u.z - v.z⟩⟩

/-- Componentwise negation (specification-side helper, not in the source). -/
noncomputable instance : Neg vec3 := ⟨fun v => ⟨-v.x, -v.y, -v.z⟩⟩

/-- Scalar operator* (clothSim.cpp:1178-1180). -/
instance : HMul vec3 ℝ vec3 := ⟨fun v c => ⟨v.x * c, v.y * c, v.z * c⟩⟩

/-- Scalar operator/ (clothSim.cpp:1174-1176). -/
noncomputable instance : HDiv vec3 ℝ vec3 := ⟨fun v c => ⟨v.x / c, v.y / c, v.z / c⟩⟩

/-- magnitude (clothSim.cpp:1158-1160). -/
noncomputable def magnitude (v : vec3) : ℝ :=
  Real.sqrt (v.x * v.x + v.y * v.y + v.z * v.z)

/-- normalize (clothSim.cpp:1162-1164). -/
noncomputable def normalize (v : vec3) : vec3 := v / magnitude v

/-- cross (clothSim.cpp:1166-1168). -/
def cross (u v : vec3) : vec3 :=
  ⟨u.y * v.z - u.z * v.y, u.z * v.x - u.x * v.z, u.x * v.y - u.y * v.x⟩

/-- dot (clothSim.cpp:1170-1172). -/
def dot (u v : vec3) : ℝ := u.x * v.x + u.y * v.y + u.z * v.z

/-- PARTICLE_MASS_KG (clothSim.cpp:48). -/
def PARTICLE_MASS_KG : ℝ := 50

/-- CONSTRAINT_ITERATIONS (clothSim.cpp:49). -/
def CONSTRAINT_ITERATIONS : ℕ := 50

/-- MIN_TIME_STEP in milliseconds (clothSim.cpp:50). -/
def MIN_TIME_STEP : ℤ := 16

/-- Gravity constant (clothSim.cpp:84). -/
def gravity : vec3 := ⟨0, -0.02, 0⟩

/-- Spring constant (clothSim.cpp:85). -/
def springConstK : ℝ := 0.00000000002

/-- Damping constant (clothSim.cpp:86). -/
def damperConstD : ℝ := 1 - 0.00002

/-- Grid index (row, column): the model of a Particle* into the grid. -/
abbrev Idx := ℕ × ℕ

/-- Struct Particle (clothSim.cpp:92-99); the display color is omitted
because the simulation core never reads it. -/
structure Particle where
  position : vec3
  prevPosition : vec3
  acceleration : vec3
  mass : ℝ
  pinned : Bool

/-- Struct Spring (clothSim.cpp:101-105); Particle* endpoints become
grid indices. -/
structure Spring where
  p0 : Idx
  p1 : Idx
  restLength : ℝ

/-- The collider data the cloth reads from class Sphere: position and the
already-scaled radius (clothSim.cpp:139-153). -/
structure Sphere where
  position : vec3
  radius : ℝ

/-- Sphere::contains (clothSim.cpp:739-749). -/
def Sphere.contains (s : Sphere) (point : vec3) : Prop :=
  magnitude (point - s.position) < s.radius

/-- The mutable state of class ClothSheet (clothSim.cpp:159-180):
particle grid, spring set, registered colliders, the queue of pinned
particles, and the wind force last applied. -/
structure ClothSheet where
  rows : ℕ
  cols : ℕ
  particles : Idx → Particle
  springs : List Spring
  potentialColliders : List Sphere
  pinnedParticles : List Idx
  vWindForce : vec3

/-- Running value of vSpacer.x after j inner-loop steps of
vSpacer.x += xSpacing (clothSim.cpp:964). -/
def spacerX (x0 xSpacing : ℝ) : ℕ → ℝ
  | 0 => x0
  | j + 1 => spacerX x0 xSpacing j + xSpacing

/-- Running value of vSpacer.y after i outer-loop steps of
vSpacer.y -= ySpacing (clothSim.cpp:967). -/
def spacerY (y0 ySpacing : ℝ) : ℕ → ℝ
  | 0 => y0
  | i + 1 => spacerY y0 ySpacing i - ySpacing

/-- The particle written at grid cell (i, j) by the generation loop
(clothSim.cpp:945-968): position and prevPosition at the running spacer,
zero acceleration, constant mass, unpinned. -/
noncomputable def sheetParticle (position : vec3) (xSpacing ySpacing : ℝ) (ij : Idx) : Particle :=
  { position := ⟨spacerX position.x xSpacing ij.2, spacerY position.y ySpacing ij.1, position.z⟩
    prevPosition := ⟨spacerX position.x xSpacing ij.2, spacerY position.y ySpacing ij.1, position.z⟩
    acceleration := ⟨0, 0, 0⟩
    mass := PARTICLE_MASS_KG
    pinned := false }

/-- A value-initialized Spring, the content of a vector<Spring> slot
before the generation loop writes it; the null endpoint pointers are
modelled by index (0,0).  No default survives in the final spring rows. -/
def defaultSpring : Spring := ⟨(0, 0), (0, 0), 0⟩

/-- Size of springs.at(k) (clothSim.cpp:979-985); nsr is springs.size().
Faithful for nsr ≥ 3 and cols ≥ 1, where the size_t subtractions in the
source do not wrap. -/
def springRowSize (cols nsr k : ℕ) : ℕ :=
  if k < nsr - 3 then (cols - 1) * 8 - 1 else (cols - 1) * 6

/-- springGroupSize (clothSim.cpp:981,984). -/
def springGroupSize (nsr k : ℕ) : ℕ :=
  if k < nsr - 3 then 8 else 6

/-- One iteration of the spring generation inner loop, writing the spring
group of column col into spring row k (clothSim.cpp:989-1012).  n is the
row size, g the group size; the row index equals k.  The write at l+7 is
guarded only by l + 7 < n - 3, exactly as in the source, so in a
six-spring row it can land inside the following group (which the
following iteration then overwrites). -/
noncomputable def writeSpringGroup (nsr k n g : ℕ) (xSpacing ySpacing : ℝ)
    (col : ℕ) (f : ℕ → Spring) : ℕ → Spring :=
  let row := k
  let l := col * g
  let f0 := Function.update f l ⟨(row, col), (row + 1, col), ySpacing⟩
  let f1 := Function.update f0 (l + 1) ⟨(row, col), (row, col + 1), xSpacing⟩
  let f2 := Function.update f1 (l + 2) ⟨(row, col + 1), (row + 1, col + 1), ySpacing⟩
  let f3 := Function.update f2 (l + 3) ⟨(row + 1, col), (row + 1, col + 1), xSpacing⟩
  let f4 := Function.update f3 (l + 4)
      ⟨(row + 1, col), (row, col + 1), Real.sqrt (xSpacing * xSpacing + ySpacing * ySpacing)⟩
  let f5 := Function.update f4 (l + 5)
      ⟨(row, col), (row + 1, col + 1), Real.sqrt (xSpacing * xSpacing + ySpacing * ySpacing)⟩
  let f6 := if k < nsr - 3 then
      Function.update f5 (l + 6) ⟨(row, col), (row + 2, col), ySpacing + ySpacing⟩
    else f5
  if l + 7 < n - 3 then
    Function.update f6 (l + 7) ⟨(row, col), (row, col + 2), xSpacing + xSpacing⟩
  else f6

/-- Spring row k as a slot map: the inner loop for l = 0; l < n; l += g
runs ⌈n / g⌉ times with col incremented each iteration
(clothSim.cpp:987-1012). -/
noncomputable def buildSpringRow (nsr cols k : ℕ) (xSpacing ySpacing : ℝ) : ℕ → Spring :=
  let n := springRowSize cols nsr k
  let g := springGroupSize nsr k
  (List.range ((n + (g - 1)) / g)).foldl
    (fun f col => writeSpringGroup nsr k n g xSpacing ySpacing col f)
    (fun _ => defaultSpring)

/-- The full spring matrix flattened row-major, the order in which both
satisfyConstraints and accumulateForces traverse it. -/
noncomputable def sheetSprings (rows cols : ℕ) (xSpacing ySpacing : ℝ) : List Spring :=
  (List.range (rows - 1)).flatMap
    (fun k => (List.range (springRowSize cols (rows - 1) k)).map
      (buildSpringRow (rows - 1) cols k xSpacing ySpacing))

/-- ClothSheet::generateParticleSheet (clothSim.cpp:932-1016).  The
parameters keep their source names: `height` is the number of grid rows
and `width` the number of columns; note the single call site
(clothSim.cpp:770) passes the constructor's width argument for `height`.
Faithful for height, width ≥ 4 (no size_t wrap, all accesses in range). -/
noncomputable def generateParticleSheet (position : vec3) (height width : ℕ) : ClothSheet :=
  let xSpacing : ℝ := 2 / ((height : ℝ) - 1)
  let ySpacing : ℝ := 2 / ((width : ℝ) - 1)
  { rows := height
    cols := width
    particles := sheetParticle position xSpacing ySpacing
    springs := sheetSprings height width xSpacing ySpacing
    potentialColliders := []
    pinnedParticles := []
    vWindForce := ⟨0, 0, 0⟩ }

/-- Set the pinned flag of one grid cell (clothSim.cpp:777-789). -/
noncomputable def pinAt (f : Idx → Particle) (ij : Idx) : Idx → Particle :=
  Function.update f ij { f ij with pinned := true }

/-- ClothSheet::ClothSheet (clothSim.cpp:763-791).  The constructor calls
generateParticleSheet(width, height), binding its width argument to the
height (row count) parameter; it then pins row-0 columns 0,1,2 and
columns particles.size()-1, -2, -3, where particles.size() is the ROW
count, pushing each onto the pinned queue in that order.  Faithful for
width ≤ height (otherwise the source .at() calls throw). -/
noncomputable def clothSheetCtor (position : vec3) (width height : ℕ) : ClothSheet :=
  let s := generateParticleSheet position width height
  { s with
    particles := pinAt (pinAt (pinAt (pinAt (pinAt (pinAt s.particles (0, 0)) (0, 1)) (0, 2))
      (0, s.rows - 1)) (0, s.rows - 2)) (0, s.rows - 3)
    pinnedParticles := [(0, 0), (0, 1), (0, 2),
      (0, s.rows - 1), (0, s.rows - 2), (0, s.rows - 3)] }

/-- The fixed squared timestep of ClothSheet::move (clothSim.cpp:850). -/
def timeTSquared : ℝ := 0.01

/-- Collision projection offset (clothSim.cpp:885). -/
def offsetScalar : ℝ := 0.03

/-- Apply a per-particle update to every in-range grid cell, the shape of
the double loops over particles in move and handleCollision. -/
def mapParticles (s : ClothSheet) (g : Particle → Particle) : ClothSheet :=
  { s with particles := fun ij =>
      if ij.1 < s.rows ∧ ij.2 < s.cols then g (s.particles ij) else s.particles ij }

/-- Verlet update of a single particle (clothSim.cpp:862-869). -/
noncomputable def integrateStep (particle : Particle) : Particle :=
  if particle.pinned then particle else
    { particle with
      position := (particle.position * (2 : ℝ) - particle.prevPosition * damperConstD)
        + particle.acceleration * timeTSquared
      prevPosition := particle.position }

/-- The integration loop of ClothSheet::move (clothSim.cpp:858-871). -/
noncomputable def integrate (s : ClothSheet) : ClothSheet := mapParticles s integrateStep

/-- One spring step of the constraint solver (clothSim.cpp:1032-1049):
compute the correction, subtract it from an unpinned p0, then add it to
an unpinned p1 (reading p1 after the possible p0 write, as the source's
pointer writes do). -/
noncomputable def relaxSpring (f : Idx → Particle) (spring : Spring) : Idx → Particle :=
  let p0 := f spring.p0
  let p1 := f spring.p1
  let vCurrentDistance := p0.position - p1.position
  let deltaDistance := magnitude vCurrentDistance
  let vConstraints := (vCurrentDistance * (1 - spring.restLength / deltaDistance)) * (0.5 : ℝ)
  let f0 := if p0.pinned then f
    else Function.update f spring.p0 { p0 with position := p0.position - vConstraints }
  if (f0 spring.p1).pinned then f0
  else Function.update f0 spring.p1
    { f0 spring.p1 with position := (f0 spring.p1).position + vConstraints }

/-- One full Gauss-Seidel pass over all springs (clothSim.cpp:1030-1051). -/
noncomputable def relaxOnce (springs : List Spring) (f : Idx → Particle) : Idx → Particle :=
  springs.foldl relaxSpring f

/-- n sequential relaxation passes (outer loop, clothSim.cpp:1029). -/
noncomputable def relaxIterate (springs : List Spring) : ℕ → (Idx → Particle) → (Idx → Particle)
  | 0, f => f
  | n + 1, f => relaxIterate springs n (relaxOnce springs f)

/-- ClothSheet::satisfyConstraints with an explicit iteration count
(clothSim.cpp:1019-1053). -/
noncomputable def satisfyConstraintsN (n : ℕ) (s : ClothSheet) : ClothSheet :=
  { s with particles := relaxIterate s.springs n s.particles }

/-- ClothSheet::satisfyConstraints as shipped: CONSTRAINT_ITERATIONS
passes. -/
noncomputable def satisfyConstraints (s : ClothSheet) : ClothSheet :=
  satisfyConstraintsN CONSTRAINT_ITERATIONS s

/-- Wind contribution of one triangle (clothSim.cpp:1069-1093): face
normal from two edges, projected wind, divided by the summed mass, added
to the three particles' accelerations in sequence. -/
noncomputable def windTriangle (vWindForce : vec3) (f : Idx → Particle)
    (i0 i1 i2 : Idx) : Idx → Particle :=
  let v0 := f i0
  let v1 := f i1
  let v2 := f i2
  let vFaceNormal := normalize (cross (v1.position - v0.position) (v2.position - v0.position))
  let vWindAcceleration :=
    (vFaceNormal * dot vFaceNormal vWindForce) / (v0.mass + v1.mass + v2.mass)
  let g0 := Function.update f i0
    { f i0 with acceleration := (f i0).acceleration + vWindAcceleration }
  let g1 := Function.update g0 i1
    { g0 i1 with acceleration := (g0 i1).acceleration + vWindAcceleration }
  Function.update g1 i2
    { g1 i2 with acceleration := (g1 i2).acceleration + vWindAcceleration }

/-- Both triangles of the quad at (k, l) (clothSim.cpp:1068-1093). -/
noncomputable def windQuad (vWindForce : vec3) (f : Idx → Particle) (k l : ℕ) : Idx → Particle :=
  let f1 := windTriangle vWindForce f (k + 1, l) (k, l) (k, l + 1)
  windTriangle vWindForce f1 (k + 1, l) (k, l + 1) (k + 1, l + 1)

/-- Row-major traversal order of the quad loops (clothSim.cpp:1066-1067). -/
def quadIdxList (rows cols : ℕ) : List (ℕ × ℕ) :=
  (List.range (rows - 1)).flatMap (fun k => (List.range (cols - 1)).map (fun l => (k, l)))

/-- The wind pass of accumulateForces (clothSim.cpp:1066-1095). -/
noncomputable def windPass (vWindForce : vec3) (rows cols : ℕ)
    (f : Idx → Particle) : Idx → Particle :=
  (quadIdxList rows cols).foldl (fun f kl => windQuad vWindForce f kl.1 kl.2) f

/-- vSpringAcceleration of one spring (clothSim.cpp:1114-1119); note the
division by p0's mass is used for both endpoints. -/
noncomputable def springAccel (f : Idx → Particle) (spring : Spring) : vec3 :=
  let p0 := f spring.p0
  let p1 := f spring.p1
  let vCurrentDistance := p0.position - p1.position
  let currentDistMagnitude := magnitude vCurrentDistance
  let deltaDistance := currentDistMagnitude - spring.restLength
  ((vCurrentDistance / currentDistMagnitude) * (springConstK * deltaDistance)) / p0.mass

/-- One spring step of the gravity + spring pass (clothSim.cpp:1108-1124):
gravity over the endpoint's own mass plus the signed spring acceleration,
added onto the stored acceleration; p1 is read after the p0 write. -/
noncomputable def springForceStep (f : Idx → Particle) (spring : Spring) : Idx → Particle :=
  let vSpringAcceleration := springAccel f spring
  let g0 := Function.update f spring.p0
    { f spring.p0 with acceleration :=
        (gravity / (f spring.p0).mass) - vSpringAcceleration + (f spring.p0).acceleration }
  Function.update g0 spring.p1
    { g0 spring.p1 with acceleration :=
        (gravity / (g0 spring.p1).mass) + vSpringAcceleration + (g0 spring.p1).acceleration }

/-- The gravity + spring pass over all springs (clothSim.cpp:1108-1124). -/
noncomputable def springPass (springs : List Spring) (f : Idx → Particle) : Idx → Particle :=
  springs.foldl springForceStep f

/-- ClothSheet::accumulateForces (clothSim.cpp:1056-1125).  The computed
wind normal at line 1058 is never used afterwards; the binding is kept to
mirror the source. -/
noncomputable def accumulateForces (s : ClothSheet) : ClothSheet :=
  let _vWindNormal := normalize s.vWindForce
  { s with particles := springPass s.springs (windPass s.vWindForce s.rows s.cols s.particles) }

/-- Collision response for one particle against one collider
(clothSim.cpp:890-904).  The containment test uses the collider's own
radius, but the projection radius is read from the GLOBAL sphere
(sphere->getRadius(), lines 897 and 901), modelled by gRadius. -/
noncomputable def resolveParticle (gRadius : ℝ) (collidable : Sphere)
    (particle : Particle) : Particle :=
  if magnitude (particle.position - collidable.position) < collidable.radius then
    let vDistance := particle.position - collidable.position
    let vNormalizedDist := normalize vDistance
    let vScaledDist := vNormalizedDist * gRadius
    { particle with position := collidable.position + vNormalizedDist * gRadius
        + vScaledDist * offsetScalar }
  else particle

/-- ClothSheet::handleCollision (clothSim.cpp:877-907). -/
noncomputable def handleCollision (gRadius : ℝ) (s : ClothSheet) : ClothSheet :=
  s.potentialColliders.foldl
    (fun st collidable => mapParticles st (resolveParticle gRadius collidable)) s

/-- m repeated collision-resolution passes for a stationary collider set. -/
noncomputable def handleCollisionN (gRadius : ℝ) : ℕ → ClothSheet → ClothSheet
  | 0, s => s
  | m + 1, s => handleCollisionN gRadius m (handleCollision gRadius s)

/-- ClothSheet::move (clothSim.cpp:848-874): accumulate forces, relax
constraints, integrate, resolve collisions.  The deltaT argument is
unused by the body; gRadius models the global sphere radius used by
handleCollision. -/
noncomputable def move (deltaT : ℤ) (gRadius : ℝ) (s : ClothSheet) : ClothSheet :=
  handleCollision gRadius (integrate (satisfyConstraints (accumulateForces s)))

/-- n simulation steps. -/
noncomputable def moveN (deltaT : ℤ) (gRadius : ℝ) : ℕ → ClothSheet → ClothSheet
  | 0, s => s
  | n + 1, s => moveN deltaT gRadius n (move deltaT gRadius s)

/-- ClothSheet::detach (clothSim.cpp:915-920): pop every queued pinned
particle, clearing its flag. -/
noncomputable def detach (s : ClothSheet) : ClothSheet :=
  { s with
    particles := s.pinnedParticles.foldl
      (fun f ij => Function.update f ij { f ij with pinned := false }) s.particles
    pinnedParticles := [] }

/-- ClothSheet::pushCollidable (clothSim.cpp:923-925). -/
def pushCollidable (s : ClothSheet) (collidable : Sphere) : ClothSheet :=
  { s with potentialColliders := s.potentialColliders ++ [collidable] }

/-- ClothSheet::applyWindForce (clothSim.cpp:910-912). -/
def applyWindForce (s : ClothSheet) (windForce : vec3) : ClothSheet :=
  { s with vWindForce := windForce }

/-- Class Wind state (clothSim.cpp:186-196). -/
structure Wind where
  enabled : Bool
  timeBlowing : ℤ
  windForce : vec3

/-- Wind::Wind (clothSim.cpp:1131-1135). -/
def windCtor (windForce : vec3) : Wind := ⟨true, 0, windForce⟩

/-- Wind::generateWindForce (clothSim.cpp:1137-1148): accumulate deltaT;
past 1200 reset the accumulator and invert the force; return the live
force when enabled, the zero vector otherwise.  Returns the produced
vector together with the updated state. -/
noncomputable def generateWindForce (w : Wind) (deltaT : ℤ) : vec3 × Wind :=
  let t := w.timeBlowing + deltaT
  let w' : Wind :=
    if t > 1200 then { w with timeBlowing := 0, windForce := w.windForce * (-1 : ℝ) }
    else { w with timeBlowing := t }
  ((if w.enabled then w'.windForce else ⟨0, 0, 0⟩), w')

/-- Repeated generateWindForce calls, keeping only the state. -/
noncomputable def runWind (w : Wind) : List ℤ → Wind
  | [] => w
  | d :: ds => runWind (generateWindForce w d).2 ds

/-- Wind::toggleWind (clothSim.cpp:1150-1152). -/
def toggleWind (w : Wind) : Wind := { w with enabled := !w.enabled }

/-- Division with an explicit division-by-zero branch, for exhibiting the
unguarded degenerate divisions of the source. -/
noncomputable def cdiv (a b : ℝ) : Option ℝ := if b = 0 then none else some (a / b)

/-- Componentwise checked scalar division. -/
noncomputable def vdivChecked (v : vec3) (c : ℝ) : Option vec3 :=
  if c = 0 then none else some (v / c)

/-- normalize with the zero-magnitude division made explicit
(clothSim.cpp:1162-1164, used at clothSim.cpp:1058). -/
noncomputable def normalizeChecked (v : vec3) : Option vec3 := vdivChecked v (magnitude v)

/-- relaxSpring with the division by the current spring length made
explicit (clothSim.cpp:1040). -/
noncomputable def relaxSpringChecked (f : Idx → Particle) (spring : Spring) :
    Option (Idx → Particle) :=
  let p0 := f spring.p0
  let p1 := f spring.p1
  let vCurrentDistance := p0.position - p1.position
  let deltaDistance := magnitude vCurrentDistance
  (cdiv spring.restLength deltaDistance).map (fun q =>
    let vConstraints := (vCurrentDistance * (1 - q)) * (0.5 : ℝ)
    let f0 := if p0.pinned then f
      else Function.update f spring.p0 { p0 with position := p0.position - vConstraints }
    if (f0 spring.p1).pinned then f0
    else Function.update f0 spring.p1
      { f0 spring.p1 with position := (f0 spring.p1).position + vConstraints })

/-- springAccel with the division by the current spring length made
explicit (clothSim.cpp:1118). -/
noncomputable def springAccelChecked (f : Idx → Particle) (spring : Spring) : Option vec3 :=
  let p0 := f spring.p0
  let p1 := f spring.p1
  let vCurrentDistance := p0.position - p1.position
  let currentDistMagnitude := magnitude vCurrentDistance
  let deltaDistance := currentDistMagnitude - spring.restLength
  (vdivChecked vCurrentDistance currentDistMagnitude).map
    (fun u => (u * (springConstK * deltaDistance)) / p0.mass)

/-- Incidence count of a grid cell among spring endpoints: the number of
gravity contributions the gravity + spring pass adds to that cell. -/
def degree (ij : Idx) (springs : List Spring) : ℕ :=
  (springs.filter (fun spr => decide (ij = spr.p0))).length
    + (springs.filter (fun spr => decide (ij = spr.p1))).length

/-- Total wind-pass acceleration contribution of a list of quads to one
grid cell, reading positions and masses from f. -/
noncomputable def windTriContrib (vWindForce : vec3) (f : Idx → Particle)
    (i0 i1 i2 ij : Idx) : vec3 :=
  let v0 := f i0
  let v1 := f i1
  let v2 := f i2
  let vFaceNormal := normalize (cross (v1.position - v0.position) (v2.position - v0.position))
  let a := (vFaceNormal * dot vFaceNormal vWindForce) / (v0.mass + v1.mass + v2.mass)
  (if ij = i0 then a else 0) + (if ij = i1 then a else 0) + (if ij = i2 then a else 0)

/-- Summed wind contribution over a quad list. -/
noncomputable def windContribSum (vWindForce : vec3) (f : Idx → Particle) :
    List (ℕ × ℕ) → Idx → vec3
  | [], _ => 0
  | kl :: rest, ij =>
    windTriContrib vWindForce f (kl.1 + 1, kl.2) (kl.1, kl.2) (kl.1, kl.2 + 1) ij
      + windTriContrib vWindForce f (kl.1 + 1, kl.2) (kl.1, kl.2 + 1) (kl.1 + 1, kl.2 + 1) ij
      + windContribSum vWindForce f rest ij

/-- Summed elastic (gravity-free) spring contribution to one grid cell. -/
noncomputable def elasticSum (f : Idx → Particle) : List Spring → Idx → vec3
  | [], _ => 0
  | spr :: rest, ij =>
    (if ij = spr.p0 then -springAccel f spr else 0)
      + (if ij = spr.p1 then springAccel f spr else 0) + elasticSum f rest ij

/-- Final content of slot `slot` of a spring row with group size g
(resolving the out-of-group writes, which later groups overwrite). -/
noncomputable def specSpring (g : ℕ) (xSpacing ySpacing : ℝ) (row slot : ℕ) : Spring :=
  let c := slot / g
  match slot % g with
  | 0 => ⟨(row, c), (row + 1, c), ySpacing⟩
  | 1 => ⟨(row, c), (row, c + 1), xSpacing⟩
  | 2 => ⟨(row, c + 1), (row + 1, c + 1), ySpacing⟩
  | 3 => ⟨(row + 1, c), (row + 1, c + 1), xSpacing⟩
  | 4 => ⟨(row + 1, c), (row, c + 1), Real.sqrt (xSpacing * xSpacing + ySpacing * ySpacing)⟩
  | 5 => ⟨(row, c), (row + 1, c + 1), Real.sqrt (xSpacing * xSpacing + ySpacing * ySpacing)⟩
  | 6 => ⟨(row, c), (row + 2, c), ySpacing + ySpacing⟩
  | _ => ⟨(row, c), (row, c + 2), xSpacing + xSpacing⟩

/-- A one-particle test sheet with no springs and no colliders. -/
noncomputable def oneParticleSheet : ClothSheet :=
  ⟨1, 1, fun _ => ⟨⟨1, 2, 3⟩, ⟨0, 1, 0⟩, ⟨0, 0, 1⟩, PARTICLE_MASS_KG, false⟩,
    [], [], [], ⟨0, 0, 0⟩⟩

/-- A one-particle sheet whose particle lies strictly inside a unit-radius
collider centered at the origin. -/
noncomputable def collideSheet : ClothSheet :=
  ⟨1, 1, fun _ => ⟨⟨3 / 4, 0, 0⟩, ⟨3 / 4, 0, 0⟩, ⟨0, 0, 0⟩, PARTICLE_MASS_KG, false⟩,
    [], [⟨⟨0, 0, 0⟩, 1⟩], [], ⟨0, 0, 0⟩⟩

/-- A collision scene whose registered collider has radius 2, different
from the global sphere radius used for the projection. -/
noncomputable def mismatchSheet : ClothSheet :=
  ⟨1, 1, fun _ => ⟨⟨1, 0, 0⟩, ⟨1, 0, 0⟩, ⟨0, 0, 0⟩, PARTICLE_MASS_KG, false⟩,
    [], [⟨⟨0, 0, 0⟩, 2⟩], [], ⟨0, 0, 0⟩⟩

/-- A collision scene whose particle sits exactly at the collider center. -/
noncomputable def centerSheet : ClothSheet :=
  ⟨1, 1, fun _ => ⟨⟨0, 0, 0⟩, ⟨0, 0, 0⟩, ⟨0, 0, 0⟩, PARTICLE_MASS_KG, false⟩,
    [], [⟨⟨0, 0, 0⟩, 1⟩], [], ⟨0, 0, 0⟩⟩

/-- Two particles joined by a single spring that is exactly at rest
length. -/
noncomputable def restPairSheet : ClothSheet :=
  ⟨1, 2, fun ij =>
      if ij = (0, 1) then ⟨⟨1, 0, 0⟩, ⟨1, 0, 0⟩, ⟨0, 0, 0⟩, PARTICLE_MASS_KG, false⟩
      else ⟨⟨0, 0, 0⟩, ⟨0, 0, 0⟩, ⟨0, 0, 0⟩, PARTICLE_MASS_KG, false⟩,
    [⟨(0, 0), (0, 1), 1⟩], [], [], ⟨0, 0, 0⟩⟩

/-- The five spring families of the generated topology, with their rest
lengths and in-range endpoints, for a rows × cols grid with spacings
xs (horizontal) and ys (vertical). -/
def SpringShape (rows cols : ℕ) (xs ys : ℝ) (spr : Spring) : Prop :=
  (∃ r c, r + 1 < rows ∧ c < cols ∧ spr = ⟨(r, c), (r + 1, c), ys⟩)
  ∨ (∃ r c, r < rows ∧ c + 1 < cols ∧ spr = ⟨(r, c), (r, c + 1), xs⟩)
  ∨ (∃ r c, r + 1 < rows ∧ c + 1 < cols
      ∧ (spr = ⟨(r + 1, c), (r, c + 1), Real.sqrt (xs * xs + ys * ys)⟩
        ∨ spr = ⟨(r, c), (r + 1, c + 1), Real.sqrt (xs * xs + ys * ys)⟩))
  ∨ (∃ r c, r + 2 < rows ∧ c < cols ∧ spr = ⟨(r, c), (r + 2, c), ys + ys⟩)
  ∨ (∃ r c, r < rows ∧ c + 2 < cols ∧ spr = ⟨(r, c), (r, c + 2), xs + xs⟩)

/-- The particle maps f and g agree everywhere on every field except
possibly acceleration. -/
def AccelOnly (f g : Idx → Particle) : Prop :=
  ∀ ij, (g ij).position = (f ij).position ∧ (g ij).prevPosition = (f ij).prevPosition
    ∧ (g ij).mass = (f ij).mass ∧ (g ij).pinned = (f ij).pinned

/-- The particle maps f and g agree everywhere on every field except
possibly position. -/
def PosOnly (f g : Idx → Particle) : Prop :=
  ∀ ij, (g ij).acceleration = (f ij).acceleration
    ∧ (g ij).prevPosition = (f ij).prevPosition
    ∧ (g ij).mass = (f ij).mass ∧ (g ij).pinned = (f ij).pinned

/-- The particle maps f and g agree everywhere on positions and masses. -/
def SamePosMass (f g : Idx → Particle) : Prop :=
  ∀ ij, (g ij).position = (f ij).position ∧ (g ij).mass = (f ij).mass

@[ext] theorem vec3.extEq {u v : vec3}
    (hx : u.x = v.x) (hy : u.y = v.y) (hz : u.z = v.z) : u = v := by
  cases u
  cases v
  simp_all

@[simp] theorem zero_x : (0 : vec3).x = 0 := rfl

@[simp] theorem zero_y : (0 : vec3).y = 0 := rfl

@[simp] theorem zero_z : (0 : vec3).z = 0 := rfl

@[simp] theorem add_x (u v : vec3) : (u + v).x = u.x + v.x := rfl

@[simp] theorem add_y (u v : vec3) : (u + v).y = u.y + v.y := rfl

@[simp] theorem add_z (u v : vec3) : (u + v).z = u.z + v.z := rfl

@[simp] theorem sub_x (u v : vec3) : (u - v).x = u.x - v.x := rfl

@[simp] theorem sub_y (u v : vec3) : (u - v).y = u.y - v.y := rfl

@[simp] theorem sub_z (u v : vec3) : (u - v).z = u.z - v.z := rfl

@[simp] theorem neg_x (u : vec3) : (-u).x = -u.x := rfl

@[simp] theorem neg_y (u : vec3) : (-u).y = -u.y := rfl

@[simp] theorem neg_z (u : vec3) : (-u).z = -u.z := rfl

@[simp] theorem smul_x (u : vec3) (c : ℝ) : (u * c).x = u.x * c := rfl

@[simp] theorem smul_y (u : vec3) (c : ℝ) : (u * c).y = u.y * c := rfl

@[simp] theorem smul_z (u : vec3) (c : ℝ) : (u * c).z = u.z * c := rfl

@[simp] theorem sdiv_x (u : vec3) (c : ℝ) : (u / c).x = u.x / c := rfl

@[simp] theorem sdiv_y (u : vec3) (c : ℝ) : (u / c).y = u.y / c := rfl

@[simp] theorem sdiv_z (u : vec3) (c : ℝ) : (u / c).z = u.z / c := rfl

theorem magnitude_nonneg (v : vec3) : 0 ≤ magnitude v := Real.sqrt_nonneg _

/-- Evaluation helper: the square root of a recognized perfect square. -/
theorem sqrt_eval {a b : ℝ} (hb : 0 ≤ b) (h : b * b = a) : Real.sqrt a = b := by
  rw [← h]
  exact Real.sqrt_mul_self hb

theorem magnitude_eq_zero {v : vec3} (h : magnitude v = 0) : v = 0 := by
  have hle : v.x * v.x + v.y * v.y + v.z * v.z ≤ 0 := Real.sqrt_eq_zero'.mp h
  have hx : v.x * v.x = 0 := by nlinarith [mul_self_nonneg v.x, mul_self_nonneg v.y, mul_self_nonneg v.z]
  have hy : v.y * v.y = 0 := by nlinarith [mul_self_nonneg v.x, mul_self_nonneg v.y, mul_self_nonneg v.z]
  have hz : v.z * v.z = 0 := by nlinarith [mul_self_nonneg v.x, mul_self_nonneg v.y, mul_self_nonneg v.z]
  ext <;> simp [mul_self_eq_zero.mp hx, mul_self_eq_zero.mp hy, mul_self_eq_zero.mp hz]

theorem magnitude_pos {v : vec3} (h : v ≠ 0) : 0 < magnitude v :=
  lt_of_le_of_ne (magnitude_nonneg v) fun he => h (magnitude_eq_zero he.symm)

theorem magnitude_smul (v : vec3) (c : ℝ) : magnitude (v * c) = magnitude v * |c| := by
  unfold magnitude
  rw [show (v * c).x * (v * c).x + (v * c).y * (v * c).y + (v * c).z * (v * c).z
      = (v.x * v.x + v.y * v.y + v.z * v.z) * (c * c) by simp; ring]
  rw [Real.sqrt_mul (add_nonneg (add_nonneg (mul_self_nonneg _) (mul_self_nonneg _))
    (mul_self_nonneg _)), Real.sqrt_mul_self_eq_abs]

theorem magnitude_normalize {v : vec3} (h : v ≠ 0) : magnitude (normalize v) = 1 := by
  have hm := magnitude_pos h
  have hdiv : v / magnitude v = v * (magnitude v)⁻¹ := by
    ext <;> simp [div_eq_mul_inv]
  rw [normalize, hdiv, magnitude_smul, abs_inv, abs_of_pos hm,
    mul_inv_cancel₀ (ne_of_gt hm)]

theorem vec3.sub_eq_zero_iff {u v : vec3} : u - v = 0 ↔ u = v := by
  constructor
  · intro he
    have hx := congrArg vec3.x he
    have hy := congrArg vec3.y he
    have hz := congrArg vec3.z he
    simp at hx hy hz
    ext <;> [exact sub_eq_zero.mp hx; exact sub_eq_zero.mp hy; exact sub_eq_zero.mp hz]
  · intro he
    subst he
    ext <;> simp

theorem magnitude_neg_one (v : vec3) : magnitude (v * (-1 : ℝ)) = magnitude v := by
  rw [magnitude_smul]
  simp

theorem accelOnly_refl (f : Idx → Particle) : AccelOnly f f := fun _ => ⟨rfl, rfl, rfl, rfl⟩

theorem accelOnly_trans {f g h : Idx → Particle}
    (h1 : AccelOnly f g) (h2 : AccelOnly g h) : AccelOnly f h := fun ij =>
  ⟨(h2 ij).1.trans (h1 ij).1, (h2 ij).2.1.trans (h1 ij).2.1,
    (h2 ij).2.2.1.trans (h1 ij).2.2.1, (h2 ij).2.2.2.trans (h1 ij).2.2.2⟩

theorem posOnly_refl (f : Idx → Particle) : PosOnly f f := fun _ => ⟨rfl, rfl, rfl, rfl⟩

theorem posOnly_trans {f g h : Idx → Particle}
    (h1 : PosOnly f g) (h2 : PosOnly g h) : PosOnly f h := fun ij =>
  ⟨(h2 ij).1.trans (h1 ij).1, (h2 ij).2.1.trans (h1 ij).2.1,
    (h2 ij).2.2.1.trans (h1 ij).2.2.1, (h2 ij).2.2.2.trans (h1 ij).2.2.2⟩

theorem accelOnly_samePosMass {f g : Idx → Particle} (h : AccelOnly f g) :
    SamePosMass f g := fun ij => ⟨(h ij).1, (h ij).2.2.1⟩

theorem windTriangle_accelOnly (w : vec3) (f : Idx → Particle) (i0 i1 i2 : Idx) :
    AccelOnly f (windTriangle w f i0 i1 i2) := by
  intro ij
  simp only [windTriangle, Function.update_apply]
  split_ifs <;> simp_all

theorem windQuad_accelOnly (w : vec3) (f : Idx → Particle) (k l : ℕ) :
    AccelOnly f (windQuad w f k l) := by
  unfold windQuad
  exact accelOnly_trans (windTriangle_accelOnly w f _ _ _) (windTriangle_accelOnly w _ _ _ _)

theorem windPass_accelOnly (w : vec3) (rows cols : ℕ) (f : Idx → Particle) :
    AccelOnly f (windPass w rows cols f) := by
  unfold windPass
  generalize quadIdxList rows cols = L
  induction L generalizing f with
  | nil => exact accelOnly_refl f
  | cons kl L ih =>
    exact accelOnly_trans (windQuad_accelOnly w f kl.1 kl.2) (ih _)

theorem springForceStep_accelOnly (f : Idx → Particle) (spr : Spring) :
    AccelOnly f (springForceStep f spr) := by
  intro ij
  simp only [springForceStep, Function.update_apply]
  split_ifs <;> simp_all

theorem springPass_accelOnly (springs : List Spring) (f : Idx → Particle) :
    AccelOnly f (springPass springs f) := by
  unfold springPass
  induction springs generalizing f with
  | nil => exact accelOnly_refl f
  | cons spr L ih =>
    exact accelOnly_trans (springForceStep_accelOnly f spr) (ih _)

theorem accumulateForces_accelOnly (s : ClothSheet) :
    AccelOnly s.particles (accumulateForces s).particles := by
  unfold accumulateForces
  exact accelOnly_trans (windPass_accelOnly _ _ _ _) (springPass_accelOnly _ _)

@[simp] theorem accumulateForces_rows (s : ClothSheet) :
    (accumulateForces s).rows = s.rows := rfl

@[simp] theorem accumulateForces_cols (s : ClothSheet) :
    (accumulateForces s).cols = s.cols := rfl

@[simp] theorem accumulateForces_springs (s : ClothSheet) :
    (accumulateForces s).springs = s.springs := rfl

@[simp] theorem accumulateForces_colliders (s : ClothSheet) :
    (accumulateForces s).potentialColliders = s.potentialColliders := rfl

@[simp] theorem accumulateForces_queue (s : ClothSheet) :
    (accumulateForces s).pinnedParticles = s.pinnedParticles := rfl

theorem posOnly_update_position (f : Idx → Particle) (a : Idx) (v : vec3) :
    PosOnly f (Function.update f a { f a with position := v }) := by
  intro ij
  by_cases h : ij = a
  · subst h
    simp [Function.update_apply]
  · simp [Function.update_apply, h]

theorem update_pos_pinned_pos {g : Idx → Particle} {a : Idx} {v : vec3} {ij : Idx}
    (hg : (g ij).pinned = true) (ha : (g a).pinned = false) :
    ((Function.update g a { g a with position := v }) ij).position = (g ij).position := by
  have hne : ij ≠ a := by
    intro he
    subst he
    rw [hg] at ha
    simp at ha
  rw [Function.update_noteq hne]

theorem relaxSpring_posOnly (f : Idx → Particle) (spr : Spring) :
    PosOnly f (relaxSpring f spr) := by
  simp only [relaxSpring]
  split_ifs
  · exact posOnly_refl f
  · exact posOnly_update_position f spr.p1 _
  · exact posOnly_update_position f spr.p0 _
  · exact posOnly_trans (posOnly_update_position f spr.p0 _)
      (posOnly_update_position _ spr.p1 _)

theorem relaxSpring_pinned_pos (f : Idx → Particle) (spr : Spring) (ij : Idx)
    (h : (f ij).pinned = true) : ((relaxSpring f spr) ij).position = (f ij).position := by
  simp only [relaxSpring]
  split_ifs with h1 h2 h3
  · rfl
  · exact update_pos_pinned_pos h (by simpa using h2)
  · exact update_pos_pinned_pos h (by simpa using h1)
  · have e1 : ((Function.update f spr.p0
        { f spr.p0 with position := (f spr.p0).position
          - ((f spr.p0).position - (f spr.p1).position)
            * (1 - spr.restLength / magnitude ((f spr.p0).position - (f spr.p1).position))
            * (0.5 : ℝ) }) ij).pinned = true := by
      rw [((posOnly_update_position f spr.p0 _) ij).2.2.2]
      exact h
    exact (update_pos_pinned_pos e1 (by simpa using h3)).trans
      (update_pos_pinned_pos h (by simpa using h1))

theorem relaxOnce_posOnly (springs : List Spring) (f : Idx → Particle) :
    PosOnly f (relaxOnce springs f) := by
  unfold relaxOnce
  induction springs generalizing f with
  | nil => exact posOnly_refl f
  | cons spr L ih =>
    exact posOnly_trans (relaxSpring_posOnly f spr) (ih _)

theorem relaxOnce_pinned_pos (springs : List Spring) (f : Idx → Particle) (ij : Idx)
    (h : (f ij).pinned = true) : ((relaxOnce springs f) ij).position = (f ij).position := by
  unfold relaxOnce
  induction springs generalizing f with
  | nil => rfl
  | cons spr L ih =>
    have hp : ((relaxSpring f spr) ij).pinned = true := by
      rw [((relaxSpring_posOnly f spr) ij).2.2.2]
      exact h
    exact (ih (relaxSpring f spr) hp).trans (relaxSpring_pinned_pos f spr ij h)

theorem relaxIterate_posOnly (springs : List Spring) (n : ℕ) (f : Idx → Particle) :
    PosOnly f (relaxIterate springs n f) := by
  induction n generalizing f with
  | zero => exact posOnly_refl f
  | succ n ih =>
    exact posOnly_trans (relaxOnce_posOnly springs f) (ih _)

theorem relaxIterate_pinned_pos (springs : List Spring) (n : ℕ) (f : Idx → Particle) (ij : Idx)
    (h : (f ij).pinned = true) : ((relaxIterate springs n f) ij).position = (f ij).position := by
  induction n generalizing f with
  | zero => rfl
  | succ n ih =>
    have hp : ((relaxOnce springs f) ij).pinned = true := by
      rw [((relaxOnce_posOnly springs f) ij).2.2.2]
      exact h
    exact (ih (relaxOnce springs f) hp).trans (relaxOnce_pinned_pos springs f ij h)

@[simp] theorem satisfyConstraintsN_particles (n : ℕ) (s : ClothSheet) :
    (satisfyConstraintsN n s).particles = relaxIterate s.springs n s.particles := rfl

@[simp] theorem accumulateForces_particles (s : ClothSheet) :
    (accumulateForces s).particles
      = springPass s.springs (windPass s.vWindForce s.rows s.cols s.particles) := rfl

@[simp] theorem satisfyConstraintsN_rows (n : ℕ) (s : ClothSheet) :
    (satisfyConstraintsN n s).rows = s.rows := rfl

@[simp] theorem satisfyConstraintsN_cols (n : ℕ) (s : ClothSheet) :
    (satisfyConstraintsN n s).cols = s.cols := rfl

@[simp] theorem satisfyConstraintsN_springs (n : ℕ) (s : ClothSheet) :
    (satisfyConstraintsN n s).springs = s.springs := rfl

@[simp] theorem satisfyConstraintsN_colliders (n : ℕ) (s : ClothSheet) :
    (satisfyConstraintsN n s).potentialColliders = s.potentialColliders := rfl

@[simp] theorem satisfyConstraintsN_queue (n : ℕ) (s : ClothSheet) :
    (satisfyConstraintsN n s).pinnedParticles = s.pinnedParticles := rfl

@[simp] theorem mapParticles_particles (s : ClothSheet) (g : Particle → Particle) (ij : Idx) :
    (mapParticles s g).particles ij
      = if ij.1 < s.rows ∧ ij.2 < s.cols then g (s.particles ij) else s.particles ij := rfl

@[simp] theorem mapParticles_rows (s : ClothSheet) (g : Particle → Particle) :
    (mapParticles s g).rows = s.rows := rfl

@[simp] theorem mapParticles_cols (s : ClothSheet) (g : Particle → Particle) :
    (mapParticles s g).cols = s.cols := rfl

@[simp] theorem mapParticles_springs (s : ClothSheet) (g : Particle → Particle) :
    (mapParticles s g).springs = s.springs := rfl

@[simp] theorem mapParticles_colliders (s : ClothSheet) (g : Particle → Particle) :
    (mapParticles s g).potentialColliders = s.potentialColliders := rfl

@[simp] theorem mapParticles_queue (s : ClothSheet) (g : Particle → Particle) :
    (mapParticles s g).pinnedParticles = s.pinnedParticles := rfl

theorem integrateStep_pinned {p : Particle} (h : p.pinned = true) : integrateStep p = p := by
  simp [integrateStep, h]

theorem integrateStep_unpinned {p : Particle} (h : p.pinned = false) :
    (integrateStep p).position
        = p.position * (2 : ℝ) - p.prevPosition * damperConstD + p.acceleration * timeTSquared
      ∧ (integrateStep p).prevPosition = p.position := by
  simp [integrateStep, h]

theorem integrateStep_pinned_eq (p : Particle) : (integrateStep p).pinned = p.pinned := by
  unfold integrateStep
  split <;> rfl

theorem resolveParticle_fields (gR : ℝ) (c : Sphere) (p : Particle) :
    (resolveParticle gR c p).prevPosition = p.prevPosition
      ∧ (resolveParticle gR c p).acceleration = p.acceleration
      ∧ (resolveParticle gR c p).mass = p.mass
      ∧ (resolveParticle gR c p).pinned = p.pinned := by
  unfold resolveParticle
  split <;> exact ⟨rfl, rfl, rfl, rfl⟩

theorem resolveParticle_not_contained (gR : ℝ) (c : Sphere) (p : Particle)
    (h : ¬ magnitude (p.position - c.position) < c.radius) :
    resolveParticle gR c p = p := by
  simp [resolveParticle, h]

theorem mapParticles_posOnly (s : ClothSheet) (g : Particle → Particle)
    (hg : ∀ p, (g p).acceleration = p.acceleration ∧ (g p).prevPosition = p.prevPosition
      ∧ (g p).mass = p.mass ∧ (g p).pinned = p.pinned) :
    PosOnly s.particles (mapParticles s g).particles := by
  intro ij
  simp only [mapParticles_particles]
  split
  · exact hg (s.particles ij)
  · exact ⟨rfl, rfl, rfl, rfl⟩

theorem collideFold_fields (gR : ℝ) (L : List Sphere) (s : ClothSheet) :
    (L.foldl (fun st collidable => mapParticles st (resolveParticle gR collidable)) s).rows = s.rows
      ∧ (L.foldl (fun st collidable => mapParticles st (resolveParticle gR collidable)) s).cols = s.cols
      ∧ (L.foldl (fun st collidable => mapParticles st (resolveParticle gR collidable)) s).springs = s.springs
      ∧ (L.foldl (fun st collidable => mapParticles st (resolveParticle gR collidable)) s).potentialColliders = s.potentialColliders
      ∧ (L.foldl (fun st collidable => mapParticles st (resolveParticle gR collidable)) s).pinnedParticles = s.pinnedParticles := by
  induction L generalizing s with
  | nil => exact ⟨rfl, rfl, rfl, rfl, rfl⟩
  | cons c L ih =>
    simpa using ih (mapParticles s (resolveParticle gR c))

theorem collideFold_posOnly (gR : ℝ) (L : List Sphere) (s : ClothSheet) :
    PosOnly s.particles
      (L.foldl (fun st collidable => mapParticles st (resolveParticle gR collidable)) s).particles := by
  induction L generalizing s with
  | nil => exact posOnly_refl s.particles
  | cons c L ih =>
    exact posOnly_trans
      (mapParticles_posOnly s (resolveParticle gR c) fun p =>
        ⟨(resolveParticle_fields gR c p).2.1, (resolveParticle_fields gR c p).1,
          (resolveParticle_fields gR c p).2.2.1, (resolveParticle_fields gR c p).2.2.2⟩)
      (ih (mapParticles s (resolveParticle gR c)))

theorem collideFold_pos_of_not_contained (gR : ℝ) (L : List Sphere) (s : ClothSheet) (ij : Idx)
    (h : ∀ c ∈ L, ¬ magnitude ((s.particles ij).position - c.position) < c.radius) :
    ((L.foldl (fun st collidable => mapParticles st (resolveParticle gR collidable)) s).particles ij).position
      = (s.particles ij).position := by
  induction L generalizing s with
  | nil => rfl
  | cons c L ih =>
    have hstep : ((mapParticles s (resolveParticle gR c)).particles ij).position
        = (s.particles ij).position := by
      simp only [mapParticles_particles]
      split
      · rw [resolveParticle_not_contained gR c _ (h c (List.mem_cons_self c L))]
      · rfl
    rw [List.foldl_cons, ih (mapParticles s (resolveParticle gR c)) fun c' hc' => by
      rw [hstep]
      exact h c' (List.mem_cons_of_mem c hc'), hstep]

theorem handleCollision_posOnly (gR : ℝ) (s : ClothSheet) :
    PosOnly s.particles (handleCollision gR s).particles :=
  collideFold_posOnly gR s.potentialColliders s

theorem handleCollision_fields (gR : ℝ) (s : ClothSheet) :
    (handleCollision gR s).rows = s.rows ∧ (handleCollision gR s).cols = s.cols
      ∧ (handleCollision gR s).springs = s.springs
      ∧ (handleCollision gR s).potentialColliders = s.potentialColliders
      ∧ (handleCollision gR s).pinnedParticles = s.pinnedParticles :=
  collideFold_fields gR s.potentialColliders s

theorem handleCollision_pos_of_not_contained (gR : ℝ) (s : ClothSheet) (ij : Idx)
    (h : ∀ c ∈ s.potentialColliders,
      ¬ magnitude ((s.particles ij).position - c.position) < c.radius) :
    ((handleCollision gR s).particles ij).position = (s.particles ij).position :=
  collideFold_pos_of_not_contained gR s.potentialColliders s ij h

theorem integrate_particles (s : ClothSheet) (ij : Idx) :
    (integrate s).particles ij
      = if ij.1 < s.rows ∧ ij.2 < s.cols then integrateStep (s.particles ij)
        else s.particles ij := rfl

theorem integrate_pinned_flag (s : ClothSheet) (ij : Idx) :
    ((integrate s).particles ij).pinned = (s.particles ij).pinned := by
  rw [integrate_particles]
  split
  · exact integrateStep_pinned_eq (s.particles ij)
  · rfl

theorem integrate_pinned_particle (s : ClothSheet) (ij : Idx)
    (h : (s.particles ij).pinned = true) :
    (integrate s).particles ij = s.particles ij := by
  rw [integrate_particles]
  split
  · exact integrateStep_pinned h
  · rfl

theorem move_fields (d : ℤ) (gR : ℝ) (s : ClothSheet) :
    (move d gR s).rows = s.rows ∧ (move d gR s).cols = s.cols
      ∧ (move d gR s).springs = s.springs
      ∧ (move d gR s).potentialColliders = s.potentialColliders
      ∧ (move d gR s).pinnedParticles = s.pinnedParticles := by
  unfold move
  have h := handleCollision_fields gR (integrate (satisfyConstraints (accumulateForces s)))
  simpa using h

theorem move_pinned_flag (d : ℤ) (gR : ℝ) (s : ClothSheet) (ij : Idx) :
    ((move d gR s).particles ij).pinned = (s.particles ij).pinned := by
  unfold move
  rw [((handleCollision_posOnly gR _) ij).2.2.2, integrate_pinned_flag]
  show ((satisfyConstraintsN CONSTRAINT_ITERATIONS (accumulateForces s)).particles ij).pinned = _
  rw [satisfyConstraintsN_particles, ((relaxIterate_posOnly _ _ _) ij).2.2.2,
    ((accumulateForces_accelOnly s) ij).2.2.2]

theorem move_pinned_pos (d : ℤ) (gR : ℝ) (s : ClothSheet) (ij : Idx)
    (hpin : (s.particles ij).pinned = true)
    (hout : ∀ c ∈ s.potentialColliders,
      ¬ magnitude ((s.particles ij).position - c.position) < c.radius) :
    ((move d gR s).particles ij).position = (s.particles ij).position := by
  unfold move
  have h1 := accumulateForces_accelOnly s
  have hpin1 : ((accumulateForces s).particles ij).pinned = true := by
    rw [(h1 ij).2.2.2]
    exact hpin
  have hpos1 : ((accumulateForces s).particles ij).position = (s.particles ij).position :=
    (h1 ij).1
  have hpin2 : ((satisfyConstraints (accumulateForces s)).particles ij).pinned = true := by
    show ((satisfyConstraintsN CONSTRAINT_ITERATIONS (accumulateForces s)).particles ij).pinned = true
    rw [satisfyConstraintsN_particles, ((relaxIterate_posOnly _ _ _) ij).2.2.2]
    exact hpin1
  have hpos2 : ((satisfyConstraints (accumulateForces s)).particles ij).position
      = (s.particles ij).position := by
    show ((satisfyConstraintsN CONSTRAINT_ITERATIONS (accumulateForces s)).particles ij).position = _
    rw [satisfyConstraintsN_particles, relaxIterate_pinned_pos _ _ _ _ hpin1]
    exact hpos1
  have h3 := integrate_pinned_particle (satisfyConstraints (accumulateForces s)) ij hpin2
  have hpos3 : ((integrate (satisfyConstraints (accumulateForces s))).particles ij).position
      = (s.particles ij).position := by
    rw [h3]
    exact hpos2
  rw [handleCollision_pos_of_not_contained gR _ ij fun c hc => by
    rw [hpos3]
    exact hout c (by simpa using hc), hpos3]

theorem moveN_fields (d : ℤ) (gR : ℝ) (n : ℕ) (s : ClothSheet) :
    (moveN d gR n s).rows = s.rows ∧ (moveN d gR n s).cols = s.cols
      ∧ (moveN d gR n s).springs = s.springs
      ∧ (moveN d gR n s).potentialColliders = s.potentialColliders
      ∧ (moveN d gR n s).pinnedParticles = s.pinnedParticles := by
  induction n generalizing s with
  | zero => exact ⟨rfl, rfl, rfl, rfl, rfl⟩
  | succ n ih =>
    have h1 := move_fields d gR s
    have h2 := ih (move d gR s)
    exact ⟨h2.1.trans h1.1, h2.2.1.trans h1.2.1, h2.2.2.1.trans h1.2.2.1,
      h2.2.2.2.1.trans h1.2.2.2.1, h2.2.2.2.2.trans h1.2.2.2.2⟩

theorem moveN_pinned_pos (d : ℤ) (gR : ℝ) (n : ℕ) (s : ClothSheet) (ij : Idx)
    (hpin : (s.particles ij).pinned = true)
    (hout : ∀ c ∈ s.potentialColliders,
      ¬ magnitude ((s.particles ij).position - c.position) < c.radius) :
    ((moveN d gR n s).particles ij).position = (s.particles ij).position := by
  induction n generalizing s with
  | zero => rfl
  | succ n ih =>
    have hpos := move_pinned_pos d gR s ij hpin hout
    have hpin' : ((move d gR s).particles ij).pinned = true := by
      rw [move_pinned_flag]
      exact hpin
    have hout' : ∀ c ∈ (move d gR s).potentialColliders,
        ¬ magnitude (((move d gR s).particles ij).position - c.position) < c.radius := by
      intro c hc
      rw [hpos]
      exact hout c (by rw [← (move_fields d gR s).2.2.2.1]; exact hc)
    exact (ih (move d gR s) hpin' hout').trans hpos

theorem detachFold_fields (L : List Idx) (f : Idx → Particle) (ij : Idx) :
    ((L.foldl (fun f ij => Function.update f ij { f ij with pinned := false }) f) ij).position
        = (f ij).position
      ∧ ((L.foldl (fun f ij => Function.update f ij { f ij with pinned := false }) f) ij).prevPosition
        = (f ij).prevPosition
      ∧ ((L.foldl (fun f ij => Function.update f ij { f ij with pinned := false }) f) ij).acceleration
        = (f ij).acceleration
      ∧ ((L.foldl (fun f ij => Function.update f ij { f ij with pinned := false }) f) ij).mass
        = (f ij).mass := by
  induction L generalizing f with
  | nil => exact ⟨rfl, rfl, rfl, rfl⟩
  | cons a L ih =>
    have hstep : ∀ fld : Particle → vec3,
        ((Function.update f a { f a with pinned := false }) ij).position = (f ij).position := by
      intro _
      by_cases h : ij = a
      · subst h
        simp [Function.update_apply]
      · simp [Function.update_apply, h]
    have h2 := ih (Function.update f a { f a with pinned := false })
    refine ⟨h2.1.trans ?_, h2.2.1.trans ?_, h2.2.2.1.trans ?_, h2.2.2.2.trans ?_⟩ <;>
      (by_cases h : ij = a
       · subst h
         simp [Function.update_apply]
       · simp [Function.update_apply, h])

theorem detachFold_pinned_false (L : List Idx) (f : Idx → Particle) (ij : Idx)
    (h : ij ∈ L ∨ (f ij).pinned = false) :
    ((L.foldl (fun f ij => Function.update f ij { f ij with pinned := false }) f) ij).pinned
      = false := by
  induction L generalizing f with
  | nil =>
    rcases h with h | h
    · cases h
    · exact h
  | cons a L ih =>
    rcases h with h | h
    · rcases List.mem_cons.mp h with h | h
      · subst h
        exact ih _ (Or.inr (by simp [Function.update_apply]))
      · exact ih _ (Or.inl h)
    · refine ih _ (Or.inr ?_)
      by_cases he : ij = a
      · subst he
        simp [Function.update_apply]
      · simp [Function.update_apply, he]
        exact h

theorem detach_unpins (s : ClothSheet)
    (hinv : ∀ ij, (s.particles ij).pinned = true → ij ∈ s.pinnedParticles) :
    ∀ ij, ((detach s).particles ij).pinned = false := by
  intro ij
  unfold detach
  apply detachFold_pinned_false
  by_cases h : (s.particles ij).pinned = true
  · exact Or.inl (hinv ij h)
  · exact Or.inr (by simpa using h)

theorem detach_idem (s : ClothSheet) : detach (detach s) = detach s := rfl

theorem relaxSpring_at_rest (f : Idx → Particle) (spr : Spring)
    (h : magnitude ((f spr.p0).position - (f spr.p1).position) = spr.restLength) :
    relaxSpring f spr = f := by
  simp only [relaxSpring]
  have hv : ((f spr.p0).position - (f spr.p1).position)
      * (1 - spr.restLength / magnitude ((f spr.p0).position - (f spr.p1).position))
      * (0.5 : ℝ) = 0 := by
    by_cases h0 : magnitude ((f spr.p0).position - (f spr.p1).position) = 0
    · rw [magnitude_eq_zero h0]
      ext <;> simp
    · rw [← h, div_self h0]
      ext <;> simp
  rw [hv]
  have e0 : (f spr.p0).position - (0 : vec3) = (f spr.p0).position := by
    ext <;> simp
  have e1 : (f spr.p1).position + (0 : vec3) = (f spr.p1).position := by
    ext <;> simp
  rw [e0]
  have ee0 : ({ f spr.p0 with position := (f spr.p0).position } : Particle) = f spr.p0 := rfl
  rw [ee0, Function.update_eq_self, ite_self, e1]
  have ee1 : ({ f spr.p1 with position := (f spr.p1).position } : Particle) = f spr.p1 := rfl
  rw [ee1, Function.update_eq_self, ite_self]

theorem relaxOnce_at_rest (springs : List Spring) (f : Idx → Particle)
    (h : ∀ spr ∈ springs,
      magnitude ((f spr.p0).position - (f spr.p1).position) = spr.restLength) :
    relaxOnce springs f = f := by
  unfold relaxOnce
  induction springs with
  | nil => rfl
  | cons spr L ih =>
    rw [List.foldl_cons, relaxSpring_at_rest f spr (h spr (List.mem_cons_self spr L))]
    exact ih fun spr' h' => h spr' (List.mem_cons_of_mem spr h')

theorem relaxIterate_at_rest (springs : List Spring) (n : ℕ) (f : Idx → Particle)
    (h : ∀ spr ∈ springs,
      magnitude ((f spr.p0).position - (f spr.p1).position) = spr.restLength) :
    relaxIterate springs n f = f := by
  induction n with
  | zero => rfl
  | succ n ih =>
    show relaxIterate springs n (relaxOnce springs f) = f
    rw [relaxOnce_at_rest springs f h, ih]

theorem generateWindForce_flip (w : Wind) (d : ℤ) (h : w.timeBlowing + d > 1200) :
    (generateWindForce w d).2.windForce = w.windForce * (-1 : ℝ)
      ∧ (generateWindForce w d).2.timeBlowing = 0
      ∧ magnitude (generateWindForce w d).2.windForce = magnitude w.windForce := by
  have hw : (generateWindForce w d).2
      = { w with timeBlowing := 0, windForce := w.windForce * (-1 : ℝ) } := by
    simp [generateWindForce, h]
  rw [hw]
  exact ⟨rfl, rfl, magnitude_neg_one w.windForce⟩

theorem generateWindForce_no_flip (w : Wind) (d : ℤ) (h : ¬ w.timeBlowing + d > 1200) :
    (generateWindForce w d).2.windForce = w.windForce
      ∧ (generateWindForce w d).2.timeBlowing = w.timeBlowing + d := by
  have hw : (generateWindForce w d).2 = { w with timeBlowing := w.timeBlowing + d } := by
    simp [generateWindForce, h]
  rw [hw]
  exact ⟨rfl, rfl⟩

theorem generateWindForce_disabled (w : Wind) (d : ℤ) (h : w.enabled = false) :
    (generateWindForce w d).1 = (⟨0, 0, 0⟩ : vec3) := by
  simp [generateWindForce, h]

theorem generateWindForce_enabled (w : Wind) (d : ℤ) (h : w.enabled = true) :
    (generateWindForce w d).1 = (generateWindForce w d).2.windForce := by
  simp [generateWindForce, h]

theorem generateWindForce_enabled_irrelevant (w : Wind) (e : Bool) (d : ℤ) :
    (generateWindForce { w with enabled := e } d).2
      = { (generateWindForce w d).2 with enabled := e } := by
  simp only [generateWindForce]
  split <;> rfl

theorem runWind_append (w : Wind) (l1 l2 : List ℤ) :
    runWind w (l1 ++ l2) = runWind (runWind w l1) l2 := by
  induction l1 generalizing w with
  | nil => rfl
  | cons d l1 ih =>
    show runWind (generateWindForce w d).2 (l1 ++ l2) = _
    exact ih (generateWindForce w d).2

theorem runWind_no_flip (ds : List ℤ) (w : Wind) (hnn : ∀ d ∈ ds, 0 ≤ d)
    (hb : w.timeBlowing + ds.sum ≤ 1200) :
    runWind w ds = { w with timeBlowing := w.timeBlowing + ds.sum } := by
  induction ds generalizing w with
  | nil => simp [runWind]
  | cons d ds ih =>
    have hsum : 0 ≤ ds.sum :=
      List.sum_nonneg fun x hx => hnn x (List.mem_cons_of_mem d hx)
    have hd : ¬ w.timeBlowing + d > 1200 := by
      simp only [List.sum_cons] at hb
      omega
    show runWind (generateWindForce w d).2 ds = _
    have hw : (generateWindForce w d).2 = { w with timeBlowing := w.timeBlowing + d } := by
      simp only [generateWindForce, if_neg hd]
    rw [hw, ih _ (fun x hx => hnn x (List.mem_cons_of_mem d hx))
      (by simp only [List.sum_cons] at hb; simpa using by omega)]
    simp only [List.sum_cons]
    congr 1
    omega

theorem windTriangle_accel (w : vec3) (f : Idx → Particle) (i0 i1 i2 ij : Idx) :
    ((windTriangle w f i0 i1 i2) ij).acceleration
      = (f ij).acceleration + windTriContrib w f i0 i1 i2 ij := by
  simp only [windTriangle, windTriContrib, Function.update_apply]
  split_ifs <;> first
  | (exfalso; simp_all; done)
  | (subst_vars; ext <;> simp <;> ring1)

theorem windTriContrib_congr {f g : Idx → Particle} (h : SamePosMass f g)
    (w : vec3) (i0 i1 i2 ij : Idx) :
    windTriContrib w g i0 i1 i2 ij = windTriContrib w f i0 i1 i2 ij := by
  simp only [windTriContrib, (h i0).1, (h i1).1, (h i2).1, (h i0).2, (h i1).2, (h i2).2]

theorem windContribSum_congr {f g : Idx → Particle} (h : SamePosMass f g)
    (w : vec3) (L : List (ℕ × ℕ)) (ij : Idx) :
    windContribSum w g L ij = windContribSum w f L ij := by
  induction L with
  | nil => rfl
  | cons kl L ih =>
    simp only [windContribSum, windTriContrib_congr h, ih]

theorem windQuad_accel (w : vec3) (f : Idx → Particle) (k l : ℕ) (ij : Idx) :
    ((windQuad w f k l) ij).acceleration
      = (f ij).acceleration
        + (windTriContrib w f (k + 1, l) (k, l) (k, l + 1) ij
          + windTriContrib w f (k + 1, l) (k, l + 1) (k + 1, l + 1) ij) := by
  unfold windQuad
  rw [windTriangle_accel, windTriangle_accel,
    windTriContrib_congr (accelOnly_samePosMass (windTriangle_accelOnly w f _ _ _))]
  ext <;> simp <;> ring

theorem windFold_accel (w : vec3) (L : List (ℕ × ℕ)) (f : Idx → Particle) (ij : Idx) :
    ((L.foldl (fun f kl => windQuad w f kl.1 kl.2) f) ij).acceleration
      = (f ij).acceleration + windContribSum w f L ij := by
  induction L generalizing f with
  | nil =>
    show (f ij).acceleration = (f ij).acceleration + (0 : vec3)
    ext <;> simp
  | cons kl L ih =>
    rw [List.foldl_cons, ih (windQuad w f kl.1 kl.2), windQuad_accel,
      windContribSum_congr (accelOnly_samePosMass (windQuad_accelOnly w f kl.1 kl.2))]
    show _ = _ + windContribSum w f (kl :: L) ij
    simp only [windContribSum]
    ext <;> simp <;> ring

theorem windPass_accel (w : vec3) (rows cols : ℕ) (f : Idx → Particle) (ij : Idx) :
    ((windPass w rows cols f) ij).acceleration
      = (f ij).acceleration + windContribSum w f (quadIdxList rows cols) ij :=
  windFold_accel w (quadIdxList rows cols) f ij

theorem springAccel_congr {f g : Idx → Particle} (h : SamePosMass f g) (spr : Spring) :
    springAccel g spr = springAccel f spr := by
  simp only [springAccel, (h spr.p0).1, (h spr.p1).1, (h spr.p0).2]

theorem elasticSum_congr {f g : Idx → Particle} (h : SamePosMass f g)
    (L : List Spring) (ij : Idx) :
    elasticSum g L ij = elasticSum f L ij := by
  induction L with
  | nil => rfl
  | cons spr L ih =>
    simp only [elasticSum, springAccel_congr h, ih]

theorem springForceStep_accel (f : Idx → Particle) (spr : Spring) (ij : Idx) :
    ((springForceStep f spr) ij).acceleration
      = (f ij).acceleration
        + ((if ij = spr.p0 then gravity / (f spr.p0).mass - springAccel f spr else 0)
          + (if ij = spr.p1 then gravity / (f spr.p1).mass + springAccel f spr else 0)) := by
  simp only [springForceStep, Function.update_apply]
  split_ifs <;> first
  | (exfalso; simp_all; done)
  | (subst_vars; ext <;> simp <;> ring1)
  | (subst_vars; ext <;> simp_all <;> ring1)

theorem degree_cons (ij : Idx) (spr : Spring) (L : List Spring) :
    degree ij (spr :: L)
      = degree ij L + (if ij = spr.p0 then 1 else 0) + (if ij = spr.p1 then 1 else 0) := by
  simp only [degree, List.filter_cons, decide_eq_true_eq]
  by_cases h0 : ij = spr.p0
  · by_cases h1 : ij = spr.p1
    · rw [if_pos h0, if_pos h1, if_pos h0, if_pos h1]
      simp only [List.length_cons]
      omega
    · rw [if_pos h0, if_neg h1, if_pos h0, if_neg h1]
      simp only [List.length_cons]
      omega
  · by_cases h1 : ij = spr.p1
    · rw [if_neg h0, if_pos h1, if_neg h0, if_pos h1]
      simp only [List.length_cons]
      omega
    · rw [if_neg h0, if_neg h1, if_neg h0, if_neg h1]
      omega

theorem springPass_accel (springs : List Spring) (f : Idx → Particle) (ij : Idx) :
    ((springPass springs f) ij).acceleration
      = (f ij).acceleration
        + ((gravity / (f ij).mass) * ((degree ij springs : ℕ) : ℝ)
          + elasticSum f springs ij) := by
  unfold springPass
  induction springs generalizing f with
  | nil =>
    show (f ij).acceleration = _
    simp only [degree, List.filter_nil, List.length_nil, elasticSum]
    ext <;> simp
  | cons spr L ih =>
    rw [List.foldl_cons, ih (springForceStep f spr), springForceStep_accel]
    have hspm : SamePosMass f (springForceStep f spr) :=
      accelOnly_samePosMass (springForceStep_accelOnly f spr)
    rw [elasticSum_congr hspm, (hspm ij).2, degree_cons]
    simp only [elasticSum]
    by_cases h0 : ij = spr.p0
    · by_cases h1 : ij = spr.p1
      · simp only [if_pos h0, if_pos h1]
        push_cast
        ext <;> simp [← h0, ← h1] <;> ring1
      · simp only [if_pos h0, if_neg h1]
        push_cast
        ext <;> simp [← h0] <;> ring1
    · by_cases h1 : ij = spr.p1
      · simp only [if_neg h0, if_pos h1]
        push_cast
        ext <;> simp [← h1] <;> ring1
      · simp only [if_neg h0, if_neg h1]
        push_cast
        ext <;> simp <;> ring1

set_option maxHeartbeats 2000000 in
theorem writeSpringGroup_apply (nsr k n g : ℕ) (xs ys : ℝ) (col : ℕ)
    (f : ℕ → Spring) (slot : ℕ) :
    writeSpringGroup nsr k n g xs ys col f slot =
      if slot = col * g then ⟨(k, col), (k + 1, col), ys⟩
      else if slot = col * g + 1 then ⟨(k, col), (k, col + 1), xs⟩
      else if slot = col * g + 2 then ⟨(k, col + 1), (k + 1, col + 1), ys⟩
      else if slot = col * g + 3 then ⟨(k + 1, col), (k + 1, col + 1), xs⟩
      else if slot = col * g + 4 then
        ⟨(k + 1, col), (k, col + 1), Real.sqrt (xs * xs + ys * ys)⟩
      else if slot = col * g + 5 then
        ⟨(k, col), (k + 1, col + 1), Real.sqrt (xs * xs + ys * ys)⟩
      else if slot = col * g + 6 then
        (if k < nsr - 3 then ⟨(k, col), (k + 2, col), ys + ys⟩ else f slot)
      else if slot = col * g + 7 then
        (if col * g + 7 < n - 3 then ⟨(k, col), (k, col + 2), xs + xs⟩ else f slot)
      else f slot := by
  by_cases g7 : col * g + 7 < n - 3 <;> by_cases g6 : k < nsr - 3 <;>
    simp only [writeSpringGroup, g6, g7, if_true, if_false, ite_true, ite_false] <;>
    simp only [Function.update_apply] <;>
    generalize col * g = L <;>
    split_ifs <;> first | rfl | omega

set_option maxHeartbeats 1600000 in
theorem springRowFold_spec8 (nsr k cols n : ℕ) (xs ys : ℝ) (hk : k < nsr - 3)
    (hn : n = (cols - 1) * 8 - 1) (hcols : 4 ≤ cols) :
    ∀ m slot, slot < m * 8 → slot < n →
      (List.range m).foldl (fun f col => writeSpringGroup nsr k n 8 xs ys col f)
        (fun _ => defaultSpring) slot = specSpring 8 xs ys k slot := by
  intro m
  induction m with
  | zero =>
    intro slot h1 _
    omega
  | succ m ih =>
    intro slot h1 h2
    rw [List.range_succ, List.foldl_append, List.foldl_cons, List.foldl_nil,
      writeSpringGroup_apply]
    by_cases hb : slot < m * 8
    · rw [if_neg (by omega : ¬ slot = m * 8), if_neg (by omega : ¬ slot = m * 8 + 1),
        if_neg (by omega : ¬ slot = m * 8 + 2), if_neg (by omega : ¬ slot = m * 8 + 3),
        if_neg (by omega : ¬ slot = m * 8 + 4), if_neg (by omega : ¬ slot = m * 8 + 5),
        if_neg (by omega : ¬ slot = m * 8 + 6), if_neg (by omega : ¬ slot = m * 8 + 7)]
      exact ih slot hb h2
    · split_ifs with e0 e1 e2 e3 e4 e5 e6 g6 e7 g7
      · subst e0
        have hd : m * 8 / 8 = m := by omega
        have hm : m * 8 % 8 = 0 := by omega
        simp [specSpring, hd, hm]
      · subst e1
        have hd : (m * 8 + 1) / 8 = m := by omega
        have hm : (m * 8 + 1) % 8 = 1 := by omega
        simp [specSpring, hd, hm]
      · subst e2
        have hd : (m * 8 + 2) / 8 = m := by omega
        have hm : (m * 8 + 2) % 8 = 2 := by omega
        simp [specSpring, hd, hm]
      · subst e3
        have hd : (m * 8 + 3) / 8 = m := by omega
        have hm : (m * 8 + 3) % 8 = 3 := by omega
        simp [specSpring, hd, hm]
      · subst e4
        have hd : (m * 8 + 4) / 8 = m := by omega
        have hm : (m * 8 + 4) % 8 = 4 := by omega
        simp [specSpring, hd, hm]
      · subst e5
        have hd : (m * 8 + 5) / 8 = m := by omega
        have hm : (m * 8 + 5) % 8 = 5 := by omega
        simp [specSpring, hd, hm]
      · subst e6
        have hd : (m * 8 + 6) / 8 = m := by omega
        have hm : (m * 8 + 6) % 8 = 6 := by omega
        simp [specSpring, hd, hm]
      · subst g6
        have hd : (m * 8 + 7) / 8 = m := by omega
        have hm : (m * 8 + 7) % 8 = 7 := by omega
        simp [specSpring, hd, hm]
      · exfalso
        omega
      · exfalso
        omega

set_option maxHeartbeats 1600000 in
theorem springRowFold_spec6 (nsr k cols n : ℕ) (xs ys : ℝ) (hk : ¬ k < nsr - 3)
    (hn : n = (cols - 1) * 6) (hcols : 4 ≤ cols) :
    ∀ m slot, slot < m * 6 → slot < n →
      (List.range m).foldl (fun f col => writeSpringGroup nsr k n 6 xs ys col f)
        (fun _ => defaultSpring) slot = specSpring 6 xs ys k slot := by
  intro m
  induction m with
  | zero =>
    intro slot h1 _
    omega
  | succ m ih =>
    intro slot h1 h2
    rw [List.range_succ, List.foldl_append, List.foldl_cons, List.foldl_nil,
      writeSpringGroup_apply]
    by_cases hb : slot < m * 6
    · rw [if_neg (by omega : ¬ slot = m * 6), if_neg (by omega : ¬ slot = m * 6 + 1),
        if_neg (by omega : ¬ slot = m * 6 + 2), if_neg (by omega : ¬ slot = m * 6 + 3),
        if_neg (by omega : ¬ slot = m * 6 + 4), if_neg (by omega : ¬ slot = m * 6 + 5),
        if_neg (by omega : ¬ slot = m * 6 + 6), if_neg (by omega : ¬ slot = m * 6 + 7)]
      exact ih slot hb h2
    · split_ifs with e0 e1 e2 e3 e4 e5 e6 g6 e7 g7
      · subst e0
        have hd : m * 6 / 6 = m := by omega
        have hm : m * 6 % 6 = 0 := by omega
        simp [specSpring, hd, hm]
      · subst e1
        have hd : (m * 6 + 1) / 6 = m := by omega
        have hm : (m * 6 + 1) % 6 = 1 := by omega
        simp [specSpring, hd, hm]
      · subst e2
        have hd : (m * 6 + 2) / 6 = m := by omega
        have hm : (m * 6 + 2) % 6 = 2 := by omega
        simp [specSpring, hd, hm]
      · subst e3
        have hd : (m * 6 + 3) / 6 = m := by omega
        have hm : (m * 6 + 3) % 6 = 3 := by omega
        simp [specSpring, hd, hm]
      · subst e4
        have hd : (m * 6 + 4) / 6 = m := by omega
        have hm : (m * 6 + 4) % 6 = 4 := by omega
        simp [specSpring, hd, hm]
      · subst e5
        have hd : (m * 6 + 5) / 6 = m := by omega
        have hm : (m * 6 + 5) % 6 = 5 := by omega
        simp [specSpring, hd, hm]
      · exfalso
        omega
      · exfalso
        omega
      · exfalso
        omega
      · exfalso
        omega

theorem buildSpringRow_spec (nsr cols k : ℕ) (xs ys : ℝ) (hcols : 4 ≤ cols)
    (slot : ℕ) (hslot : slot < springRowSize cols nsr k) :
    buildSpringRow nsr cols k xs ys slot
      = specSpring (springGroupSize nsr k) xs ys k slot := by
  unfold buildSpringRow
  by_cases hk : k < nsr - 3
  · have hg : springGroupSize nsr k = 8 := if_pos hk
    have hn : springRowSize cols nsr k = (cols - 1) * 8 - 1 := if_pos hk
    rw [hn] at hslot
    rw [hg, hn]
    exact springRowFold_spec8 nsr k cols _ xs ys hk rfl hcols _ slot (by omega) hslot
  · have hg : springGroupSize nsr k = 6 := if_neg hk
    have hn : springRowSize cols nsr k = (cols - 1) * 6 := if_neg hk
    rw [hn] at hslot
    rw [hg, hn]
    exact springRowFold_spec6 nsr k cols _ xs ys hk rfl hcols _ slot (by omega) hslot

theorem sheetSprings_mem {rows cols : ℕ} {xs ys : ℝ} {spr : Spring}
    (h : spr ∈ sheetSprings rows cols xs ys) :
    ∃ k slot, k < rows - 1 ∧ slot < springRowSize cols (rows - 1) k
      ∧ spr = buildSpringRow (rows - 1) cols k xs ys slot := by
  simp only [sheetSprings, List.mem_flatMap, List.mem_map, List.mem_range] at h
  obtain ⟨k, hk, slot, hs, he⟩ := h
  exact ⟨k, slot, hk, hs, he.symm⟩

theorem specSpring_shape (rows cols : ℕ) (xs ys : ℝ) (hrows : 4 ≤ rows) (hcols : 4 ≤ cols)
    (k slot : ℕ) (hk : k < rows - 1) (hslot : slot < springRowSize cols (rows - 1) k) :
    SpringShape rows cols xs ys (specSpring (springGroupSize (rows - 1) k) xs ys k slot) := by
  by_cases hk8 : k < (rows - 1) - 3
  · have hg : springGroupSize (rows - 1) k = 8 := if_pos hk8
    have hn : springRowSize cols (rows - 1) k = (cols - 1) * 8 - 1 := if_pos hk8
    rw [hn] at hslot
    rw [hg]
    obtain ⟨c, t, rfl, ht⟩ : ∃ c t, slot = c * 8 + t ∧ t < 8 :=
      ⟨slot / 8, slot % 8, by omega, by omega⟩
    have hd : (c * 8 + t) / 8 = c := by omega
    have hm : (c * 8 + t) % 8 = t := by omega
    simp only [specSpring, hd, hm]
    interval_cases t
    · exact Or.inl ⟨k, c, by omega, by omega, rfl⟩
    · exact Or.inr (Or.inl ⟨k, c, by omega, by omega, rfl⟩)
    · exact Or.inl ⟨k, c + 1, by omega, by omega, rfl⟩
    · exact Or.inr (Or.inl ⟨k + 1, c, by omega, by omega, rfl⟩)
    · exact Or.inr (Or.inr (Or.inl ⟨k, c, by omega, by omega, Or.inl rfl⟩))
    · exact Or.inr (Or.inr (Or.inl ⟨k, c, by omega, by omega, Or.inr rfl⟩))
    · exact Or.inr (Or.inr (Or.inr (Or.inl ⟨k, c, by omega, by omega, rfl⟩)))
    · exact Or.inr (Or.inr (Or.inr (Or.inr ⟨k, c, by omega, by omega, rfl⟩)))
  · have hg : springGroupSize (rows - 1) k = 6 := if_neg hk8
    have hn : springRowSize cols (rows - 1) k = (cols - 1) * 6 := if_neg hk8
    rw [hn] at hslot
    rw [hg]
    obtain ⟨c, t, rfl, ht⟩ : ∃ c t, slot = c * 6 + t ∧ t < 6 :=
      ⟨slot / 6, slot % 6, by omega, by omega⟩
    have hd : (c * 6 + t) / 6 = c := by omega
    have hm : (c * 6 + t) % 6 = t := by omega
    simp only [specSpring, hd, hm]
    interval_cases t
    · exact Or.inl ⟨k, c, by omega, by omega, rfl⟩
    · exact Or.inr (Or.inl ⟨k, c, by omega, by omega, rfl⟩)
    · exact Or.inl ⟨k, c + 1, by omega, by omega, rfl⟩
    · exact Or.inr (Or.inl ⟨k + 1, c, by omega, by omega, rfl⟩)
    · exact Or.inr (Or.inr (Or.inl ⟨k, c, by omega, by omega, Or.inl rfl⟩))
    · exact Or.inr (Or.inr (Or.inl ⟨k, c, by omega, by omega, Or.inr rfl⟩))

theorem sheetSprings_shape {rows cols : ℕ} {xs ys : ℝ} (hrows : 4 ≤ rows) (hcols : 4 ≤ cols)
    {spr : Spring} (h : spr ∈ sheetSprings rows cols xs ys) :
    SpringShape rows cols xs ys spr := by
  obtain ⟨k, slot, hk, hslot, rfl⟩ := sheetSprings_mem h
  rw [buildSpringRow_spec (rows - 1) cols k xs ys hcols slot hslot]
  exact specSpring_shape rows cols xs ys hrows hcols k slot hk hslot

theorem spacerX_closed (x0 dx : ℝ) : ∀ j : ℕ, spacerX x0 dx j = x0 + j * dx
  | 0 => by simp [spacerX]
  | j + 1 => by
    rw [spacerX, spacerX_closed x0 dx j]
    push_cast
    ring

theorem spacerY_closed (y0 dy : ℝ) : ∀ i : ℕ, spacerY y0 dy i = y0 - i * dy
  | 0 => by simp [spacerY]
  | i + 1 => by
    rw [spacerY, spacerY_closed y0 dy i]
    push_cast
    ring

theorem pinAt_fields (f : Idx → Particle) (a ij : Idx) :
    ((pinAt f a) ij).position = (f ij).position
      ∧ ((pinAt f a) ij).prevPosition = (f ij).prevPosition
      ∧ ((pinAt f a) ij).acceleration = (f ij).acceleration
      ∧ ((pinAt f a) ij).mass = (f ij).mass := by
  by_cases h : ij = a
  · subst h
    simp [pinAt, Function.update_apply]
  · simp [pinAt, Function.update_apply, h]

theorem pinAt_pinned (f : Idx → Particle) (a ij : Idx) :
    ((pinAt f a) ij).pinned = true ↔ ij = a ∨ (f ij).pinned = true := by
  by_cases h : ij = a <;> simp [pinAt, Function.update_apply, h]

theorem clothSheetCtor_particles (pos : vec3) (W H : ℕ) :
    (clothSheetCtor pos W H).particles
      = pinAt (pinAt (pinAt (pinAt (pinAt (pinAt
          (generateParticleSheet pos W H).particles (0, 0)) (0, 1)) (0, 2))
          (0, W - 1)) (0, W - 2)) (0, W - 3) := rfl

@[simp] theorem clothSheetCtor_rows (pos : vec3) (W H : ℕ) :
    (clothSheetCtor pos W H).rows = W := rfl

@[simp] theorem clothSheetCtor_cols (pos : vec3) (W H : ℕ) :
    (clothSheetCtor pos W H).cols = H := rfl

@[simp] theorem clothSheetCtor_springs (pos : vec3) (W H : ℕ) :
    (clothSheetCtor pos W H).springs
      = sheetSprings W H (2 / ((W : ℝ) - 1)) (2 / ((H : ℝ) - 1)) := rfl

@[simp] theorem clothSheetCtor_colliders (pos : vec3) (W H : ℕ) :
    (clothSheetCtor pos W H).potentialColliders = [] := rfl

@[simp] theorem clothSheetCtor_queue (pos : vec3) (W H : ℕ) :
    (clothSheetCtor pos W H).pinnedParticles
      = [(0, 0), (0, 1), (0, 2), (0, W - 1), (0, W - 2), (0, W - 3)] := rfl

theorem generateParticleSheet_particle (pos : vec3) (hgt wid : ℕ) (ij : Idx) :
    (generateParticleSheet pos hgt wid).particles ij
      = sheetParticle pos (2 / ((hgt : ℝ) - 1)) (2 / ((wid : ℝ) - 1)) ij := rfl

theorem clothSheetCtor_position (pos : vec3) (W H : ℕ) (ij : Idx) :
    ((clothSheetCtor pos W H).particles ij).position
      = ⟨spacerX pos.x (2 / ((W : ℝ) - 1)) ij.2,
          spacerY pos.y (2 / ((H : ℝ) - 1)) ij.1, pos.z⟩ := by
  rw [clothSheetCtor_particles, (pinAt_fields _ _ _).1, (pinAt_fields _ _ _).1,
    (pinAt_fields _ _ _).1, (pinAt_fields _ _ _).1, (pinAt_fields _ _ _).1,
    (pinAt_fields _ _ _).1]
  rfl

theorem clothSheetCtor_pinned (pos : vec3) (W H : ℕ) (ij : Idx) :
    ((clothSheetCtor pos W H).particles ij).pinned = true
      ↔ ij ∈ ([(0, 0), (0, 1), (0, 2), (0, W - 1), (0, W - 2), (0, W - 3)] : List Idx) := by
  rw [clothSheetCtor_particles]
  simp only [pinAt_pinned, List.mem_cons, List.not_mem_nil, or_false,
    generateParticleSheet_particle]
  have hbase : (sheetParticle pos (2 / ((W : ℝ) - 1)) (2 / ((H : ℝ) - 1)) ij).pinned = false :=
    rfl
  rw [hbase]
  simp only [Bool.false_eq_true, or_false]
  tauto

@[simp] theorem pushCollidable_particles (s : ClothSheet) (c : Sphere) :
    (pushCollidable s c).particles = s.particles := rfl

@[simp] theorem pushCollidable_rows (s : ClothSheet) (c : Sphere) :
    (pushCollidable s c).rows = s.rows := rfl

@[simp] theorem pushCollidable_cols (s : ClothSheet) (c : Sphere) :
    (pushCollidable s c).cols = s.cols := rfl

@[simp] theorem pushCollidable_colliders (s : ClothSheet) (c : Sphere) :
    (pushCollidable s c).potentialColliders = s.potentialColliders ++ [c] := rfl

theorem handleCollisionN_pos_of_not_contained (gR : ℝ) (m : ℕ) (s : ClothSheet) (ij : Idx)
    (h : ∀ c ∈ s.potentialColliders,
      ¬ magnitude ((s.particles ij).position - c.position) < c.radius) :
    ((handleCollisionN gR m s).particles ij).position = (s.particles ij).position := by
  induction m generalizing s with
  | zero => rfl
  | succ m ih =>
    have hpos := handleCollision_pos_of_not_contained gR s ij h
    have hcoll := (handleCollision_fields gR s).2.2.2.1
    exact (ih (handleCollision gR s) fun c hc => by
      rw [hpos]
      exact h c (by rw [← hcoll]; exact hc)).trans hpos

theorem handleCollision_singleton (gR : ℝ) (s : ClothSheet) (c : Sphere)
    (h : s.potentialColliders = [c]) :
    handleCollision gR s = mapParticles s (resolveParticle gR c) := by
  unfold handleCollision
  rw [h]
  rfl

theorem preCollision_pinned_pos (s : ClothSheet) (ij : Idx)
    (hpin : (s.particles ij).pinned = true) :
    ((integrate (satisfyConstraints (accumulateForces s))).particles ij).position
        = (s.particles ij).position
      ∧ ((integrate (satisfyConstraints (accumulateForces s))).particles ij).pinned = true := by
  have h1 := accumulateForces_accelOnly s
  have hpin1 : ((accumulateForces s).particles ij).pinned = true := by
    rw [(h1 ij).2.2.2]
    exact hpin
  have hpin2 : ((satisfyConstraints (accumulateForces s)).particles ij).pinned = true := by
    show ((satisfyConstraintsN CONSTRAINT_ITERATIONS (accumulateForces s)).particles ij).pinned
      = true
    rw [satisfyConstraintsN_particles, ((relaxIterate_posOnly _ _ _) ij).2.2.2]
    exact hpin1
  have hpos2 : ((satisfyConstraints (accumulateForces s)).particles ij).position
      = (s.particles ij).position := by
    show ((satisfyConstraintsN CONSTRAINT_ITERATIONS (accumulateForces s)).particles ij).position
      = _
    rw [satisfyConstraintsN_particles, relaxIterate_pinned_pos _ _ _ _ hpin1]
    exact (h1 ij).1
  have h3 := integrate_pinned_particle (satisfyConstraints (accumulateForces s)) ij hpin2
  rw [h3]
  exact ⟨hpos2, hpin2⟩

/-- C2: for every in-range unpinned particle, one integration step sets the
new position to (2 × position) − (prevPosition × damping constant) +
(acceleration × fixed squared timestep), stores the old position as
prevPosition, and the result of a full step is independent of the
externally supplied deltaT argument. -/
theorem C2_integration_formula :
    (∀ (s : ClothSheet) (ij : Idx), ij.1 < s.rows → ij.2 < s.cols →
      (s.particles ij).pinned = false →
      ((integrate s).particles ij).position
          = (s.particles ij).position * (2 : ℝ)
            - (s.particles ij).prevPosition * damperConstD
            + (s.particles ij).acceleration * timeTSquared
        ∧ ((integrate s).particles ij).prevPosition = (s.particles ij).position)
    ∧ (∀ (d1 d2 : ℤ) (gR : ℝ) (s : ClothSheet), move d1 gR s = move d2 gR s) := by
  constructor
  · intro s ij h1 h2 hp
    rw [integrate_particles, if_pos ⟨h1, h2⟩]
    exact integrateStep_unpinned hp
  · intro d1 d2 gR s
    rfl

/-- Witness for C2 at a concrete unpinned one-particle sheet. -/
theorem C2_integration_formula_witness :
    ((0 : ℕ) < oneParticleSheet.rows ∧ (0 : ℕ) < oneParticleSheet.cols
      ∧ (oneParticleSheet.particles (0, 0)).pinned = false)
    ∧ (((integrate oneParticleSheet).particles (0, 0)).position
          = (oneParticleSheet.particles (0, 0)).position * (2 : ℝ)
            - (oneParticleSheet.particles (0, 0)).prevPosition * damperConstD
            + (oneParticleSheet.particles (0, 0)).acceleration * timeTSquared
        ∧ ((integrate oneParticleSheet).particles (0, 0)).prevPosition
          = (oneParticleSheet.particles (0, 0)).position)
    ∧ move 0 1 oneParticleSheet = move 17 1 oneParticleSheet :=
  ⟨⟨by decide, by decide, rfl⟩,
    C2_integration_formula.1 oneParticleSheet (0, 0) (by decide) (by decide) rfl,
    C2_integration_formula.2 0 17 1 oneParticleSheet⟩

/-- C3: accumulateForces never resets the stored acceleration: each
particle's new acceleration is its old acceleration plus the wind-pass
contribution plus the gravity and elastic spring contributions, and the
gravity part equals (gravity / mass) scaled by the particle's spring
endpoint incidence count (its spring degree), once per incident endpoint. -/
theorem C3_accumulate_additive :
    ∀ (s : ClothSheet) (ij : Idx),
      ((accumulateForces s).particles ij).acceleration
        = (s.particles ij).acceleration
          + windContribSum s.vWindForce s.particles (quadIdxList s.rows s.cols) ij
          + ((gravity / (s.particles ij).mass) * ((degree ij s.springs : ℕ) : ℝ)
            + elasticSum s.particles s.springs ij) := by
  intro s ij
  rw [accumulateForces_particles, springPass_accel]
  have hspm : SamePosMass s.particles (windPass s.vWindForce s.rows s.cols s.particles) :=
    accelOnly_samePosMass (windPass_accelOnly _ _ _ _)
  rw [elasticSum_congr hspm, (hspm ij).2, windPass_accel]

/-- C5: a call flips the wind direction (sign inversion, magnitude kept)
exactly when the accumulated time passes 1200, resetting the accumulator;
a disabled call returns the zero vector but the state advances exactly as
when enabled; starting from phase 0, no flip happens while the summed
deltas stay within 1200, and the first call crossing 1200 flips exactly
once. -/
theorem C5_wind_oscillation :
    (∀ (w : Wind) (d : ℤ), w.timeBlowing + d > 1200 →
        (generateWindForce w d).2.windForce = w.windForce * (-1 : ℝ)
          ∧ (generateWindForce w d).2.timeBlowing = 0
          ∧ magnitude (generateWindForce w d).2.windForce = magnitude w.windForce)
    ∧ (∀ (w : Wind) (d : ℤ), ¬ w.timeBlowing + d > 1200 →
        (generateWindForce w d).2.windForce = w.windForce
          ∧ (generateWindForce w d).2.timeBlowing = w.timeBlowing + d)
    ∧ (∀ (w : Wind) (d : ℤ), w.enabled = false →
        (generateWindForce w d).1 = (⟨0, 0, 0⟩ : vec3))
    ∧ (∀ (w : Wind) (d : ℤ), w.enabled = true →
        (generateWindForce w d).1 = (generateWindForce w d).2.windForce)
    ∧ (∀ (w : Wind) (e : Bool) (d : ℤ),
        (generateWindForce { w with enabled := e } d).2
          = { (generateWindForce w d).2 with enabled := e })
    ∧ (∀ (w : Wind) (ds : List ℤ), w.timeBlowing = 0 → (∀ d ∈ ds, 0 ≤ d) →
        ds.sum ≤ 1200 →
        (runWind w ds).windForce = w.windForce ∧ (runWind w ds).timeBlowing = ds.sum)
    ∧ (∀ (w : Wind) (ds : List ℤ) (d : ℤ), w.timeBlowing = 0 → (∀ x ∈ ds, 0 ≤ x) →
        ds.sum ≤ 1200 → 1200 < ds.sum + d →
        (runWind w (ds ++ [d])).windForce = w.windForce * (-1 : ℝ)
          ∧ (runWind w (ds ++ [d])).timeBlowing = 0) := by
  refine ⟨generateWindForce_flip, generateWindForce_no_flip, generateWindForce_disabled,
    generateWindForce_enabled, generateWindForce_enabled_irrelevant, ?_, ?_⟩
  · intro w ds h0 hnn hb
    have h := runWind_no_flip ds w hnn (by rw [h0]; simpa using hb)
    rw [h, h0]
    exact ⟨rfl, by simp⟩
  · intro w ds d h0 hnn hb hcross
    have h := runWind_no_flip ds w hnn (by rw [h0]; simpa using hb)
    rw [runWind_append, h]
    show (generateWindForce _ d).2.windForce = _ ∧ (generateWindForce _ d).2.timeBlowing = 0
    have hgt : ({ w with timeBlowing := w.timeBlowing + ds.sum } : Wind).timeBlowing + d
        > 1200 := by
      simp only [h0]
      omega
    exact ⟨(generateWindForce_flip _ d hgt).1, (generateWindForce_flip _ d hgt).2.1⟩

/-- Witness for C5: the program's wind vector, two 600ms ticks and one
17ms tick: no flip inside the window, one flip when it is crossed. -/
theorem C5_wind_oscillation_witness :
    ((windCtor ⟨0, -2, -3 / 2⟩).timeBlowing = 0
      ∧ (∀ x ∈ ([600, 600] : List ℤ), 0 ≤ x)
      ∧ ([600, 600] : List ℤ).sum ≤ 1200
      ∧ (1200 : ℤ) < ([600, 600] : List ℤ).sum + 17)
    ∧ ((runWind (windCtor ⟨0, -2, -3 / 2⟩) ([600, 600] ++ [17])).windForce
        = ((⟨0, -2, -3 / 2⟩ : vec3)) * (-1 : ℝ)
      ∧ (runWind (windCtor ⟨0, -2, -3 / 2⟩) ([600, 600] ++ [17])).timeBlowing = 0) :=
  ⟨⟨rfl, by decide, by decide, by decide⟩,
    C5_wind_oscillation.2.2.2.2.2.2 (windCtor ⟨0, -2, -3 / 2⟩) [600, 600] 17 rfl
      (by decide) (by decide) (by decide)⟩

/-- C6: a mesh whose springs are all exactly at rest length is a fixed
point of the constraint solver, for any number of iterations. -/
theorem C6_rest_fixed_point (n : ℕ) (s : ClothSheet)
    (h : ∀ spr ∈ s.springs,
      magnitude ((s.particles spr.p0).position - (s.particles spr.p1).position)
        = spr.restLength) :
    ∀ ij, ((satisfyConstraintsN n s).particles ij).position = (s.particles ij).position := by
  intro ij
  rw [satisfyConstraintsN_particles, relaxIterate_at_rest s.springs n s.particles h]

/-- Witness for C6: a two-particle spring at rest length, one iteration. -/
theorem C6_rest_fixed_point_witness :
    (∀ spr ∈ restPairSheet.springs,
      magnitude ((restPairSheet.particles spr.p0).position
        - (restPairSheet.particles spr.p1).position) = spr.restLength)
    ∧ ∀ ij, ((satisfyConstraintsN 1 restPairSheet).particles ij).position
        = (restPairSheet.particles ij).position := by
  have hh : ∀ spr ∈ restPairSheet.springs,
      magnitude ((restPairSheet.particles spr.p0).position
        - (restPairSheet.particles spr.p1).position) = spr.restLength := by
    intro spr hspr
    have he : spr = ⟨(0, 0), (0, 1), 1⟩ := List.mem_singleton.mp hspr
    subst he
    show magnitude ((restPairSheet.particles (0, 0)).position
      - (restPairSheet.particles (0, 1)).position) = 1
    have e0 : (restPairSheet.particles (0, 0)).position = ⟨0, 0, 0⟩ := rfl
    have e1 : (restPairSheet.particles (0, 1)).position = ⟨1, 0, 0⟩ := rfl
    rw [e0, e1]
    exact sqrt_eval (by norm_num) (by norm_num)
  exact ⟨hh, C6_rest_fixed_point 1 restPairSheet hh⟩

/-- C9: detach clears the pinned flag of every particle — every pinned
particle is in the queue, a property the constructor establishes and move
preserves — and detach is idempotent. -/
theorem C9_detach_clears :
    (∀ s : ClothSheet, (∀ ij, (s.particles ij).pinned = true → ij ∈ s.pinnedParticles) →
        ∀ ij, ((detach s).particles ij).pinned = false)
    ∧ (∀ s : ClothSheet, detach (detach s) = detach s)
    ∧ (∀ (pos : vec3) (W H : ℕ) (ij : Idx),
        ((clothSheetCtor pos W H).particles ij).pinned = true
          → ij ∈ (clothSheetCtor pos W H).pinnedParticles)
    ∧ (∀ (d : ℤ) (gR : ℝ) (s : ClothSheet) (ij : Idx),
        ((move d gR s).particles ij).pinned = (s.particles ij).pinned
          ∧ (move d gR s).pinnedParticles = s.pinnedParticles) := by
  refine ⟨fun s h => detach_unpins s h, fun s => detach_idem s, ?_, ?_⟩
  · intro pos W H ij h
    rw [clothSheetCtor_queue]
    exact (clothSheetCtor_pinned pos W H ij).mp h
  · intro d gR s ij
    exact ⟨move_pinned_flag d gR s ij, (move_fields d gR s).2.2.2.2⟩

/-- Witness for C9 on a freshly constructed 6 × 6 sheet. -/
theorem C9_detach_clears_witness :
    (∀ ij, ((clothSheetCtor ⟨0, 0, 0⟩ 6 6).particles ij).pinned = true
        → ij ∈ (clothSheetCtor ⟨0, 0, 0⟩ 6 6).pinnedParticles)
    ∧ (∀ ij, ((detach (clothSheetCtor ⟨0, 0, 0⟩ 6 6)).particles ij).pinned = false)
    ∧ detach (detach (clothSheetCtor ⟨0, 0, 0⟩ 6 6))
      = detach (clothSheetCtor ⟨0, 0, 0⟩ 6 6) :=
  ⟨fun ij => C9_detach_clears.2.2.1 ⟨0, 0, 0⟩ 6 6 ij,
    C9_detach_clears.1 (clothSheetCtor ⟨0, 0, 0⟩ 6 6)
      (fun ij => C9_detach_clears.2.2.1 ⟨0, 0, 0⟩ 6 6 ij),
    C9_detach_clears.2.1 (clothSheetCtor ⟨0, 0, 0⟩ 6 6)⟩

/-- C10: in the total embedding with checked division, the zero-divisor
branch of the three unguarded divisions is reachable: a spring with
coincident endpoints makes the constraint-relaxation division and the
spring-force division hit a zero magnitude, and the zero wind vector makes
the wind normalization divide by zero. -/
theorem C10_unguarded_divisions :
    relaxSpringChecked
        (fun _ => ⟨⟨0, 0, 0⟩, ⟨0, 0, 0⟩, ⟨0, 0, 0⟩, PARTICLE_MASS_KG, false⟩)
        ⟨(0, 0), (0, 1), 1⟩ = none
    ∧ springAccelChecked
        (fun _ => ⟨⟨0, 0, 0⟩, ⟨0, 0, 0⟩, ⟨0, 0, 0⟩, PARTICLE_MASS_KG, false⟩)
        ⟨(0, 0), (0, 1), 1⟩ = none
    ∧ normalizeChecked ⟨0, 0, 0⟩ = none := by
  have hmag : magnitude ((⟨0, 0, 0⟩ : vec3) - ⟨0, 0, 0⟩) = 0 := by
    show Real.sqrt _ = 0
    norm_num
  have hmag0 : magnitude (⟨0, 0, 0⟩ : vec3) = 0 := by
    show Real.sqrt _ = 0
    norm_num
  refine ⟨?_, ?_, ?_⟩
  · simp [relaxSpringChecked, cdiv, hmag]
  · simp [springAccelChecked, vdivChecked, hmag]
  · simp [normalizeChecked, vdivChecked, hmag0]

/-- C1 counterexample: on a 4 × 4 sheet the particle (0,0) is pinned, yet
one simulation step moves it, because collision resolution ignores the
pinned flag when a registered collider contains the particle. -/
theorem C1_pinned_counterexample :
    ((pushCollidable (clothSheetCtor ⟨0, 0, 0⟩ 4 4) ⟨⟨0, 3 / 4, 0⟩, 1⟩).particles
        (0, 0)).pinned = true
    ∧ ((move 17 1 (pushCollidable (clothSheetCtor ⟨0, 0, 0⟩ 4 4) ⟨⟨0, 3 / 4, 0⟩, 1⟩)).particles
          (0, 0)).position
      ≠ ((pushCollidable (clothSheetCtor ⟨0, 0, 0⟩ 4 4) ⟨⟨0, 3 / 4, 0⟩, 1⟩).particles
          (0, 0)).position := by
  set s0 := pushCollidable (clothSheetCtor ⟨0, 0, 0⟩ 4 4) ⟨⟨0, 3 / 4, 0⟩, 1⟩ with hs0
  have hpart : s0.particles = (clothSheetCtor ⟨0, 0, 0⟩ 4 4).particles := rfl
  have hpin : (s0.particles (0, 0)).pinned = true := by
    rw [hpart]
    exact (clothSheetCtor_pinned _ 4 4 (0, 0)).mpr (by decide)
  have hpos0 : (s0.particles (0, 0)).position = ⟨0, 0, 0⟩ := by
    rw [hpart, clothSheetCtor_position]
    ext <;> simp [spacerX, spacerY]
  refine ⟨hpin, ?_⟩
  have hpre := preCollision_pinned_pos s0 (0, 0) hpin
  set s3 := integrate (satisfyConstraints (accumulateForces s0)) with hs3
  have hpos3 : (s3.particles (0, 0)).position = ⟨0, 0, 0⟩ := by
    rw [hs3, hpre.1, hpos0]
  have hcoll3 : s3.potentialColliders = [⟨⟨0, 3 / 4, 0⟩, 1⟩] := by
    rw [hs3]
    simp [integrate, satisfyConstraints, hs0]
  have hrows3 : s3.rows = 4 := by
    rw [hs3]
    simp [integrate, satisfyConstraints, hs0]
  have hcols3 : s3.cols = 4 := by
    rw [hs3]
    simp [integrate, satisfyConstraints, hs0]
  have hmove : (move 17 1 s0).particles (0, 0)
      = resolveParticle 1 ⟨⟨0, 3 / 4, 0⟩, 1⟩ (s3.particles (0, 0)) := by
    show (handleCollision 1 s3).particles (0, 0) = _
    rw [handleCollision_singleton 1 s3 _ hcoll3, mapParticles_particles,
      if_pos ⟨by rw [hrows3]; norm_num, by rw [hcols3]; norm_num⟩]
  have hm : magnitude ((s3.particles (0, 0)).position
      - (⟨⟨0, 3 / 4, 0⟩, 1⟩ : Sphere).position) = 3 / 4 := by
    rw [hpos3]
    show Real.sqrt _ = 3 / 4
    exact sqrt_eval (by norm_num) (by norm_num)
  have hcontained : magnitude ((s3.particles (0, 0)).position
        - (⟨⟨0, 3 / 4, 0⟩, 1⟩ : Sphere).position)
      < (⟨⟨0, 3 / 4, 0⟩, 1⟩ : Sphere).radius := by
    rw [hm]
    show (3 : ℝ) / 4 < 1
    norm_num
  have hn : normalize ((s3.particles (0, 0)).position
      - (⟨⟨0, 3 / 4, 0⟩, 1⟩ : Sphere).position) = ⟨0, -1, 0⟩ := by
    rw [normalize, hm, hpos3]
    ext <;> simp <;> norm_num
  have hfin : (resolveParticle 1 ⟨⟨0, 3 / 4, 0⟩, 1⟩ (s3.particles (0, 0))).position
      = ⟨0, -(7 / 25), 0⟩ := by
    simp only [resolveParticle, if_pos hcontained, hn]
    ext <;> simp [offsetScalar] <;> norm_num
  intro he
  rw [hmove, hfin, hpos0] at he
  have hy := congrArg vec3.y he
  norm_num at hy

/-- C1 (amended): a pinned particle's position is unchanged by any number
of simulation steps provided no registered collider contains its position;
the force, constraint, and integration stages never move pinned particles,
but collision resolution ignores the pinned flag. -/
theorem C1_pinned_invariant_amended (d : ℤ) (gR : ℝ) (n : ℕ) (s : ClothSheet) (ij : Idx)
    (hpin : (s.particles ij).pinned = true)
    (hout : ∀ c ∈ s.potentialColliders,
      ¬ magnitude ((s.particles ij).position - c.position) < c.radius) :
    ((moveN d gR n s).particles ij).position = (s.particles ij).position :=
  moveN_pinned_pos d gR n s ij hpin hout

/-- Witness for amended C1 on a collider-free 6 × 6 sheet, two steps. -/
theorem C1_pinned_invariant_amended_witness :
    (((clothSheetCtor ⟨0, 0, 0⟩ 6 6).particles (0, 0)).pinned = true
      ∧ (∀ c ∈ (clothSheetCtor ⟨0, 0, 0⟩ 6 6).potentialColliders,
          ¬ magnitude (((clothSheetCtor ⟨0, 0, 0⟩ 6 6).particles (0, 0)).position
            - c.position) < c.radius))
    ∧ ((moveN 17 1 2 (clothSheetCtor ⟨0, 0, 0⟩ 6 6)).particles (0, 0)).position
      = ((clothSheetCtor ⟨0, 0, 0⟩ 6 6).particles (0, 0)).position := by
  have hpin : ((clothSheetCtor ⟨0, 0, 0⟩ 6 6).particles (0, 0)).pinned = true :=
    (clothSheetCtor_pinned _ 6 6 (0, 0)).mpr (by decide)
  have hout : ∀ c ∈ (clothSheetCtor ⟨0, 0, 0⟩ 6 6).potentialColliders,
      ¬ magnitude (((clothSheetCtor ⟨0, 0, 0⟩ 6 6).particles (0, 0)).position
        - c.position) < c.radius := by
    simp
  exact ⟨⟨hpin, hout⟩,
    C1_pinned_invariant_amended 17 1 2 (clothSheetCtor ⟨0, 0, 0⟩ 6 6) (0, 0) hpin hout⟩

/-- C4 counterexample: the projection uses the GLOBAL sphere radius, so a
collider of radius 2 leaves the particle at distance 0.515, not 2.06; and
a particle exactly at the collider center stays at distance 0, not
radius·(1 + offset). -/
theorem C4_collision_counterexample :
    magnitude (((handleCollision (1 / 2) mismatchSheet).particles (0, 0)).position
        - (⟨0, 0, 0⟩ : vec3))
      ≠ (2 : ℝ) + 2 * offsetScalar
    ∧ magnitude (((handleCollision 1 centerSheet).particles (0, 0)).position
        - (⟨0, 0, 0⟩ : vec3))
      ≠ (1 : ℝ) + 1 * offsetScalar := by
  constructor
  · have hm1 : magnitude ((mismatchSheet.particles (0, 0)).position
        - (⟨⟨0, 0, 0⟩, 2⟩ : Sphere).position) = 1 := by
      show Real.sqrt _ = 1
      exact sqrt_eval (by norm_num) (by norm_num [mismatchSheet])
    have hcont : magnitude ((mismatchSheet.particles (0, 0)).position
          - (⟨⟨0, 0, 0⟩, 2⟩ : Sphere).position)
        < (⟨⟨0, 0, 0⟩, 2⟩ : Sphere).radius := by
      rw [hm1]
      show (1 : ℝ) < 2
      norm_num
    have hn : normalize ((mismatchSheet.particles (0, 0)).position
        - (⟨⟨0, 0, 0⟩, 2⟩ : Sphere).position) = ⟨1, 0, 0⟩ := by
      rw [normalize, hm1]
      ext <;> simp [mismatchSheet]
    have hres : ((handleCollision (1 / 2) mismatchSheet).particles (0, 0)).position
        = ⟨103 / 200, 0, 0⟩ := by
      rw [handleCollision_singleton (1 / 2) mismatchSheet ⟨⟨0, 0, 0⟩, 2⟩ rfl,
        mapParticles_particles, if_pos (by decide)]
      simp only [resolveParticle, if_pos hcont, hn]
      ext <;> simp [offsetScalar] <;> norm_num
    rw [hres]
    have : magnitude ((⟨103 / 200, 0, 0⟩ : vec3) - ⟨0, 0, 0⟩) = 103 / 200 := by
      show Real.sqrt _ = 103 / 200
      exact sqrt_eval (by norm_num) (by norm_num)
    rw [this, offsetScalar]
    norm_num
  · have hm0 : magnitude ((centerSheet.particles (0, 0)).position
        - (⟨⟨0, 0, 0⟩, 1⟩ : Sphere).position) = 0 := by
      show Real.sqrt _ = 0
      norm_num [centerSheet]
    have hcont : magnitude ((centerSheet.particles (0, 0)).position
          - (⟨⟨0, 0, 0⟩, 1⟩ : Sphere).position)
        < (⟨⟨0, 0, 0⟩, 1⟩ : Sphere).radius := by
      rw [hm0]
      show (0 : ℝ) < 1
      norm_num
    have hn : normalize ((centerSheet.particles (0, 0)).position
        - (⟨⟨0, 0, 0⟩, 1⟩ : Sphere).position) = ⟨0, 0, 0⟩ := by
      rw [normalize, hm0]
      ext <;> simp [centerSheet]
    have hres : ((handleCollision 1 centerSheet).particles (0, 0)).position
        = ⟨0, 0, 0⟩ := by
      rw [handleCollision_singleton 1 centerSheet ⟨⟨0, 0, 0⟩, 1⟩ rfl,
        mapParticles_particles, if_pos (by decide)]
      simp only [resolveParticle, if_pos hcont, hn]
      ext <;> simp [offsetScalar]
    rw [hres]
    have : magnitude ((⟨0, 0, 0⟩ : vec3) - ⟨0, 0, 0⟩) = 0 := by
      show Real.sqrt _ = 0
      norm_num
    rw [this, offsetScalar]
    norm_num

/-- C4 (amended): for a single registered collider whose radius equals the
global projection radius, a contained particle away from the center lands
exactly at distance radius + radius·offset after one pass; the pass never
touches prevPosition; and for the stationary collider every further pass
leaves the particle fixed, so the distance is non-decreasing. -/
theorem C4_collision_projection_amended (gR : ℝ) (s : ClothSheet) (c : Sphere) (ij : Idx)
    (hc : s.potentialColliders = [c])
    (hr : c.radius = gR)
    (h1 : ij.1 < s.rows) (h2 : ij.2 < s.cols)
    (hin : magnitude ((s.particles ij).position - c.position) < c.radius)
    (hne : (s.particles ij).position ≠ c.position) :
    magnitude (((handleCollision gR s).particles ij).position - c.position)
        = gR + gR * offsetScalar
      ∧ ((handleCollision gR s).particles ij).prevPosition = (s.particles ij).prevPosition
      ∧ ∀ m, ((handleCollisionN gR m (handleCollision gR s)).particles ij).position
          = ((handleCollision gR s).particles ij).position := by
  have hv : (s.particles ij).position - c.position ≠ 0 := fun h0 =>
    hne (vec3.sub_eq_zero_iff.mp h0)
  have hgR : 0 < gR := hr ▸ lt_of_le_of_lt (magnitude_nonneg _) hin
  have hoff : (0 : ℝ) < 1 + offsetScalar := by
    rw [offsetScalar]
    norm_num
  have hpart : (handleCollision gR s).particles ij
      = resolveParticle gR c (s.particles ij) := by
    rw [handleCollision_singleton gR s c hc, mapParticles_particles, if_pos ⟨h1, h2⟩]
  have hposres : (resolveParticle gR c (s.particles ij)).position
      = c.position + normalize ((s.particles ij).position - c.position) * gR
        + (normalize ((s.particles ij).position - c.position) * gR) * offsetScalar := by
    simp only [resolveParticle, if_pos hin]
  have hdiff : (resolveParticle gR c (s.particles ij)).position - c.position
      = normalize ((s.particles ij).position - c.position) * (gR * (1 + offsetScalar)) := by
    rw [hposres]
    ext <;> simp <;> ring
  have hdist : magnitude (((handleCollision gR s).particles ij).position - c.position)
      = gR + gR * offsetScalar := by
    rw [hpart, hdiff, magnitude_smul, magnitude_normalize hv, one_mul,
      abs_of_pos (by positivity)]
    ring
  refine ⟨hdist, ((handleCollision_posOnly gR s) ij).2.1, ?_⟩
  intro m
  apply handleCollisionN_pos_of_not_contained
  intro c' hc'
  have hc'' : c' = c := by
    rw [(handleCollision_fields gR s).2.2.2.1, hc] at hc'
    exact List.mem_singleton.mp hc'
  subst hc''
  rw [hdist, hr]
  intro habs
  nlinarith [mul_pos hgR (show (0 : ℝ) < offsetScalar from by rw [offsetScalar]; norm_num)]

/-- Witness for amended C4: unit collider, particle at distance 3/4. -/
theorem C4_collision_projection_amended_witness :
    (collideSheet.potentialColliders = [⟨⟨0, 0, 0⟩, 1⟩]
      ∧ magnitude ((collideSheet.particles (0, 0)).position
          - (⟨⟨0, 0, 0⟩, 1⟩ : Sphere).position) < (⟨⟨0, 0, 0⟩, 1⟩ : Sphere).radius
      ∧ (collideSheet.particles (0, 0)).position ≠ (⟨⟨0, 0, 0⟩, 1⟩ : Sphere).position)
    ∧ (magnitude (((handleCollision 1 collideSheet).particles (0, 0)).position
          - (⟨⟨0, 0, 0⟩, 1⟩ : Sphere).position)
        = 1 + 1 * offsetScalar
      ∧ ((handleCollision 1 collideSheet).particles (0, 0)).prevPosition
        = (collideSheet.particles (0, 0)).prevPosition
      ∧ ∀ m, ((handleCollisionN 1 m (handleCollision 1 collideSheet)).particles (0, 0)).position
          = ((handleCollision 1 collideSheet).particles (0, 0)).position) := by
  have hin : magnitude ((collideSheet.particles (0, 0)).position
      - (⟨⟨0, 0, 0⟩, 1⟩ : Sphere).position) < (⟨⟨0, 0, 0⟩, 1⟩ : Sphere).radius := by
    have : magnitude ((collideSheet.particles (0, 0)).position
        - (⟨⟨0, 0, 0⟩, 1⟩ : Sphere).position) = 3 / 4 := by
      show Real.sqrt _ = 3 / 4
      exact sqrt_eval (by norm_num) (by norm_num [collideSheet])
    rw [this]
    show (3 : ℝ) / 4 < 1
    norm_num
  have hne : (collideSheet.particles (0, 0)).position
      ≠ (⟨⟨0, 0, 0⟩, 1⟩ : Sphere).position := by
    intro h
    have := congrArg vec3.x h
    norm_num [collideSheet] at this
  exact ⟨⟨rfl, hin, hne⟩,
    C4_collision_projection_amended 1 collideSheet ⟨⟨0, 0, 0⟩, 1⟩ (0, 0) rfl rfl
      (by decide) (by decide) hin hne⟩

/-- C7 counterexample: in the 4 × 5 mesh there are 5 particles along the
x axis (5 columns), yet the x spacing is 2/(4−1), not 2/(5−1). -/
theorem C7_mesh_counterexample :
    (clothSheetCtor ⟨0, 0, 0⟩ 4 5).cols = 5
    ∧ ((clothSheetCtor ⟨0, 0, 0⟩ 4 5).particles (0, 1)).position.x
        - ((clothSheetCtor ⟨0, 0, 0⟩ 4 5).particles (0, 0)).position.x
      ≠ 2 / ((5 : ℝ) - 1) := by
  refine ⟨rfl, ?_⟩
  rw [clothSheetCtor_position, clothSheetCtor_position]
  show spacerX (0 : ℝ) (2 / ((4 : ℕ) - 1 : ℝ)) 1 - spacerX (0 : ℝ) (2 / ((4 : ℕ) - 1 : ℝ)) 0
    ≠ 2 / ((5 : ℝ) - 1)
  rw [spacerX_closed, spacerX_closed]
  norm_num

/-- C7 (amended): the constructed W × H mesh has W·H particles; adjacent
x spacing is 2/(W−1) and adjacent y spacing is 2/(H−1) — each axis spacing
uses the OTHER axis's particle count, because the constructor transposes
its arguments into generateParticleSheet — and every spring is one of the
five families: structural springs with rest length equal to the actual
axis spacing, shear springs with rest length √(xs² + ys²), and bend
springs with rest length twice the structural spacing, all endpoints in
range (bend springs omitted near the boundary). -/
theorem C7_mesh_amended (pos : vec3) (W H : ℕ) (hW : 4 ≤ W) (hH : 4 ≤ H) :
    (clothSheetCtor pos W H).rows * (clothSheetCtor pos W H).cols = W * H
    ∧ (∀ i j, ((clothSheetCtor pos W H).particles (i, j + 1)).position.x
        - ((clothSheetCtor pos W H).particles (i, j)).position.x = 2 / ((W : ℝ) - 1))
    ∧ (∀ i j, ((clothSheetCtor pos W H).particles (i, j)).position.y
        - ((clothSheetCtor pos W H).particles (i + 1, j)).position.y = 2 / ((H : ℝ) - 1))
    ∧ (∀ spr ∈ (clothSheetCtor pos W H).springs,
        SpringShape W H (2 / ((W : ℝ) - 1)) (2 / ((H : ℝ) - 1)) spr) := by
  refine ⟨rfl, ?_, ?_, ?_⟩
  · intro i j
    rw [clothSheetCtor_position, clothSheetCtor_position]
    show spacerX pos.x (2 / ((W : ℝ) - 1)) (j + 1) - spacerX pos.x (2 / ((W : ℝ) - 1)) j
      = 2 / ((W : ℝ) - 1)
    rw [spacerX_closed, spacerX_closed]
    push_cast
    ring
  · intro i j
    rw [clothSheetCtor_position, clothSheetCtor_position]
    show spacerY pos.y (2 / ((H : ℝ) - 1)) i - spacerY pos.y (2 / ((H : ℝ) - 1)) (i + 1)
      = 2 / ((H : ℝ) - 1)
    rw [spacerY_closed, spacerY_closed]
    push_cast
    ring
  · intro spr hspr
    rw [clothSheetCtor_springs] at hspr
    exact sheetSprings_shape hW hH hspr

/-- Witness for amended C7 at the 5 × 5 mesh. -/
theorem C7_mesh_amended_witness :
    ((4 : ℕ) ≤ 5 ∧ (4 : ℕ) ≤ 5)
    ∧ ((clothSheetCtor ⟨0, 0, 0⟩ 5 5).rows * (clothSheetCtor ⟨0, 0, 0⟩ 5 5).cols = 5 * 5
      ∧ (∀ i j, ((clothSheetCtor ⟨0, 0, 0⟩ 5 5).particles (i, j + 1)).position.x
          - ((clothSheetCtor ⟨0, 0, 0⟩ 5 5).particles (i, j)).position.x
          = 2 / ((5 : ℕ) - 1 : ℝ))
      ∧ (∀ i j, ((clothSheetCtor ⟨0, 0, 0⟩ 5 5).particles (i, j)).position.y
          - ((clothSheetCtor ⟨0, 0, 0⟩ 5 5).particles (i + 1, j)).position.y
          = 2 / ((5 : ℕ) - 1 : ℝ))
      ∧ (∀ spr ∈ (clothSheetCtor ⟨0, 0, 0⟩ 5 5).springs,
          SpringShape 5 5 (2 / ((5 : ℕ) - 1 : ℝ)) (2 / ((5 : ℕ) - 1 : ℝ)) spr)) :=
  ⟨⟨by norm_num, by norm_num⟩, C7_mesh_amended ⟨0, 0, 0⟩ 5 5 (by norm_num) (by norm_num)⟩

/-- C8 counterexample: the 4 × 8 mesh satisfies the ≥ 4×4 precondition,
its first row has 8 columns, yet its last first-row particle (0,7) is NOT
pinned: the right-side pins index columns by the ROW count 4. -/
theorem C8_pinning_counterexample :
    ((clothSheetCtor ⟨0, 0, 0⟩ 4 8).particles (0, 7)).pinned = false := by
  have h := clothSheetCtor_pinned ⟨0, 0, 0⟩ 4 8 (0, 7)
  have h2 : ¬ ((clothSheetCtor ⟨0, 0, 0⟩ 4 8).particles (0, 7)).pinned = true := by
    rw [h]
    decide
  simpa using h2

/-- C8 (amended): construction pins row 0 at columns 0, 1, 2 and W−1, W−2,
W−3, where W is the constructor's width argument — the ROW count — and no
other particle; for 6 ≤ W ≤ H these are six distinct in-range particles,
and they coincide with the first and last three of the first row exactly
when W = H. -/
theorem C8_pinning_amended (pos : vec3) (W H : ℕ) (hW : 6 ≤ W) (hWH : W ≤ H) :
    (∀ ij, ((clothSheetCtor pos W H).particles ij).pinned = true
        ↔ ij ∈ ([(0, 0), (0, 1), (0, 2), (0, W - 1), (0, W - 2), (0, W - 3)] : List Idx))
    ∧ ([(0, 0), (0, 1), (0, 2), (0, W - 1), (0, W - 2), (0, W - 3)] : List Idx).Nodup
    ∧ (∀ ij ∈ ([(0, 0), (0, 1), (0, 2), (0, W - 1), (0, W - 2), (0, W - 3)] : List Idx),
        ij.1 < W ∧ ij.2 < H)
    ∧ (W = H →
        ([(0, 0), (0, 1), (0, 2), (0, W - 1), (0, W - 2), (0, W - 3)] : List Idx)
          = [(0, 0), (0, 1), (0, 2), (0, H - 1), (0, H - 2), (0, H - 3)]) := by
  refine ⟨fun ij => clothSheetCtor_pinned pos W H ij, ?_, ?_, ?_⟩
  · simp only [List.nodup_cons, List.mem_cons, List.not_mem_nil, or_false,
      List.nodup_nil, and_true, Prod.mk.injEq, not_or, true_and, not_false_iff]
    omega
  · intro ij hij
    simp only [List.mem_cons, List.not_mem_nil, or_false] at hij
    rcases hij with rfl | rfl | rfl | rfl | rfl | rfl <;> exact ⟨by omega, by omega⟩
  · intro hEq
    subst hEq
    rfl

/-- Witness for amended C8 at the square 6 × 6 mesh. -/
theorem C8_pinning_amended_witness :
    ((6 : ℕ) ≤ 6 ∧ (6 : ℕ) ≤ 6)
    ∧ ((∀ ij, ((clothSheetCtor ⟨0, 0, 0⟩ 6 6).particles ij).pinned = true
        ↔ ij ∈ ([(0, 0), (0, 1), (0, 2), (0, 6 - 1), (0, 6 - 2), (0, 6 - 3)] : List Idx))
      ∧ ([(0, 0), (0, 1), (0, 2), (0, 6 - 1), (0, 6 - 2), (0, 6 - 3)] : List Idx).Nodup
      ∧ (∀ ij ∈ ([(0, 0), (0, 1), (0, 2), (0, 6 - 1), (0, 6 - 2), (0, 6 - 3)] : List Idx),
          ij.1 < 6 ∧ ij.2 < 6)
      ∧ ((6 : ℕ) = 6 →
          ([(0, 0), (0, 1), (0, 2), (0, 6 - 1), (0, 6 - 2), (0, 6 - 3)] : List Idx)
            = [(0, 0), (0, 1), (0, 2), (0, 6 - 1), (0, 6 - 2), (0, 6 - 3)])) :=
  ⟨⟨by norm_num, by norm_num⟩, C8_pinning_amended ⟨0, 0, 0⟩ 6 6 (by norm_num) (by norm_num)⟩

end ClothSim
